import Mathlib

/-!
# Showtime script page backend (`src/js/js_page.c`)

A shallow embedding of the route / searcher registry, the page model and the
worker trampoline of `js_page.c`, followed by the properties established about
them.

Conventions of the embedding:

* C strings are lists of characters (`CStr`), the terminating NUL left implicit.
* A heap object reached through a pointer carries the address `calloc` gave it
  (`addr`); the intrusive `LIST_ENTRY` links become Lean lists of such objects,
  and unlinking a node removes the object with that address.
* `int` values are integers; where the C code narrows or subtracts, the result
  is wrapped with `int32`.
* The POSIX matcher and the interpreter's function test are collaborators that
  live outside the repository; they are the fields of `Ext`.
-/

namespace Showtime

/-! ## Basic types -/

/-- C string: the characters before the terminating NUL. -/
abbrev CStr := List Char

/-- Script value word of the embedded interpreter (`jsval`); `0` is the
all-zero word a `calloc`ed field holds. -/
abbrev jsval := Nat

/-- Largest `int` value, `INT32_MAX`. -/
def INT32_MAX : Int := 2147483647

/-- Two's complement wrap of an integer into the range of a 32 bit `int`. -/
def int32 (x : Int) : Int := (x + 2147483648) % 4294967296 - 2147483648

/-- Match slot of the POSIX matcher (`regmatch_t`). -/
structure regmatch_t where
  rm_so : Int
  rm_eo : Int
deriving DecidableEq

/-- Collaborators outside the repository: `regcomp` (true when it returns 0,
with the flags `REG_EXTENDED | REG_ICASE` fixed by the caller), `regexec` on a
regex compiled from the given pattern text with 8 match slots (`none` when it
reports no match), and the interpreter's `JSVAL_IS_OBJECT` and
`JS_ObjectIsFunction` (the latter on the object a value converts to). -/
structure Ext where
  regcomp : CStr → Bool
  regexec : CStr → CStr → Option (Fin 8 → regmatch_t)
  JSVAL_IS_OBJECT : jsval → Bool
  JS_ObjectIsFunction : jsval → Bool

/-- Node of the property tree, named by the root it hangs under and the path
of child names from that root. -/
structure prop_t where
  root : Nat
  path : List String
deriving DecidableEq

/-- Modelled from the spec: `prop_create(parent, name)` of the property tree
(not under `src/`) yields the child of `parent` called `name`, the same node
on every call. -/
def prop_create (parent : prop_t) (name : String) : prop_t :=
  { root := parent.root, path := parent.path ++ [name] }

/-- Event queue handle (`prop_courier_t *`). -/
abbrev prop_courier_t := Nat

/-- Subscription handle (`prop_sub_t *`): what `prop_subscribe` was asked for. -/
structure prop_sub_t where
  ps_track_destroy : Bool
  ps_root : Option prop_t
  ps_courier : Option prop_courier_t
deriving DecidableEq

/-! ## Registry objects -/

/-- Route registration (`js_route_t`). `jsr_regex` records the pattern text
the compiled matcher was built from. -/
structure js_route where
  addr : Nat
  jsr_pattern : CStr
  jsr_regex : CStr
  jsr_openfunc : jsval
  jsr_prio : Int
deriving DecidableEq

/-- Searcher registration (`js_searcher_t`). -/
structure js_searcher where
  addr : Nat
  jss_openfunc : jsval
deriving DecidableEq

/-- Page model (`js_model_t`). Pointers are options, `none` for `NULL`. -/
structure js_model where
  jm_refcount : Int
  jm_args : Option (List CStr)
  jm_openfunc : jsval
  jm_nodes : Option prop_t
  jm_loading : Option prop_t
  jm_type : Option prop_t
  jm_title : Option prop_t
  jm_entries : Option prop_t
  jm_url : Option prop_t
  jm_pc : Option prop_courier_t
  jm_nodesub : Option prop_sub_t
  jm_run : Int
  jm_paginator : jsval
  jm_cx : Option Nat
deriving DecidableEq

/-- The two list heads of a plugin (`js_plugin_t`, declared in `js.h`) that
this file uses. -/
structure js_plugin where
  jsp_routes : List js_route
  jsp_searchers : List js_searcher
deriving DecidableEq

/-- The registry: the two file-level lists, the plugins, and the next address
`calloc` hands out. -/
structure Registry where
  js_routes : List js_route
  js_searchers : List js_searcher
  plugins : Nat → js_plugin
  next_addr : Nat

/-- Registry before any registration. -/
def Registry.empty : Registry :=
  { js_routes := [], js_searchers := [],
    plugins := fun _ => { jsp_routes := [], jsp_searchers := [] },
    next_addr := 1 }

/-- Navigator page (`nav_page_t`), as far as this file looks at it. -/
structure nav_page_t where
  np_id : Nat
  np_url : CStr
  np_view : CStr
  np_prop_root : prop_t
deriving DecidableEq

/-- What `js_backend_open` hands back: the `BACKEND_NOURI` marker or a page. -/
inductive open_result where
  | BACKEND_NOURI : open_result
  | page (np : nav_page_t) : open_result
deriving DecidableEq

/-- The part of the process outside the registry that this file acts on: the
next fresh handle, the reference counts taken on property nodes, the live
event queues and subscriptions, and the models handed to detached workers, in
spawn order. Property values are not tracked. -/
structure Sys where
  next : Nat
  prop_refs : prop_t → Int
  couriers : List prop_courier_t
  subs : List prop_sub_t
  threads : List js_model

/-! ## List macros (`queue.h`) -/

/-- Modelled from the spec: `LIST_INSERT_HEAD` (queue.h, not under `src/`)
links the element in as the new first element of the list. -/
def LIST_INSERT_HEAD {α : Type} (elm : α) (l : List α) : List α := elm :: l

/-- Modelled from the spec: `LIST_REMOVE` (queue.h, not under `src/`) unlinks
the node `elm` from the list it is linked into: the node with the address of
`elm` leaves the list, the others keep their order. -/
def LIST_REMOVE {α : Type} (key : α → Nat) (elm : α) (l : List α) : List α :=
  l.filter (fun e => key e != key elm)

/-- Whether the address of `x` is the address of a node of `l`. -/
def linked_in {α : Type} (key : α → Nat) (l : List α) (x : α) : Bool :=
  l.any (fun e => key e == key x)

/-- Modelled from the spec: `LIST_INSERT_SORTED` (not defined under `src/`)
inserts the new element before the first existing element `e` with
`cmp new e <= 0`, otherwise at the tail. -/
def LIST_INSERT_SORTED {α : Type} (cmp : α → α → Int) (elm : α) : List α → List α
  | [] => [elm]
  | e :: rest =>
    if cmp elm e ≤ 0 then elm :: e :: rest
    else e :: LIST_INSERT_SORTED cmp elm rest

/-! ## Page model -/

/-- `js_model_create`: a zeroed object with reference count 1, run flag 1 and
the handler. -/
def js_model_create (openfunc : jsval) : js_model :=
  { jm_refcount := 1, jm_args := none, jm_openfunc := openfunc,
    jm_nodes := none, jm_loading := none, jm_type := none, jm_title := none,
    jm_entries := none, jm_url := none, jm_pc := none, jm_nodesub := none,
    jm_run := 1, jm_paginator := 0, jm_cx := none }

/-- Modelled from the spec: `strvec_addpn(&vec, v, len)` (misc/string, not
under `src/`) appends a copy of the first `len` characters at `v` to the
NULL-terminated vector, allocating the vector when it is still `NULL`. -/
def strvec_addpn (vec : Option (List CStr)) (v : CStr) (len : Nat) : Option (List CStr) :=
  some (vec.getD [] ++ [v.take len])

/-- Modelled from the spec: `strvec_addp(&vec, v)` appends a copy of the whole
string `v`. -/
def strvec_addp (vec : Option (List CStr)) (v : CStr) : Option (List CStr) :=
  some (vec.getD [] ++ [v])

/-- `prop_ref_inc` on the reference counts. -/
def prop_ref_inc (refs : prop_t → Int) (p : prop_t) : prop_t → Int :=
  fun q => if q = p then refs q + 1 else refs q

/-- `prop_ref_dec` on the reference counts. -/
def prop_ref_dec (refs : prop_t → Int) (p : prop_t) : prop_t → Int :=
  fun q => if q = p then refs q - 1 else refs q

/-! ## `js_backend_open` -/

/-- The `LIST_FOREACH` scan of `js_backend_open`: the first route whose
`regexec` returns 0, with the match slots it filled. -/
def js_backend_open_scan (E : Ext) (url : CStr) :
    List js_route → Option (js_route × (Fin 8 → regmatch_t))
  | [] => none
  | jsr :: rest =>
    match E.regexec jsr.jsr_regex url with
    | some m => some (jsr, m)
    | none => js_backend_open_scan E url rest

/-- Body of the loop `for(i = 1; i < 8; i++)` of `js_backend_open`. -/
def js_backend_open_arg (url : CStr) (m : Fin 8 → regmatch_t)
    (args : Option (List CStr)) (i : Fin 8) : Option (List CStr) :=
  if (m i).rm_so ≠ -1 then
    strvec_addpn args (url.drop (m i).rm_so.toNat) ((m i).rm_eo - (m i).rm_so).toNat
  else args

/-- The loop `for(i = 1; i < 8; i++)` of `js_backend_open`. -/
def js_backend_open_args (url : CStr) (m : Fin 8 → regmatch_t) : Option (List CStr) :=
  ([1, 2, 3, 4, 5, 6, 7] : List (Fin 8)).foldl (js_backend_open_arg url m) none

/-- The model `js_backend_open` has built when it spawns the worker for the
matched route `jsr` on the page with property root `root`, with the event
queue `pc`. -/
def js_backend_open_model (jsr : js_route) (url : CStr) (m : Fin 8 → regmatch_t)
    (root : prop_t) (pc : prop_courier_t) : js_model :=
  let model := prop_create root "model"
  let metadata := prop_create model "metadata"
  let nodes := prop_create model "nodes"
  { js_model_create jsr.jsr_openfunc with
    jm_args := js_backend_open_args url m,
    jm_loading := some (prop_create model "loading"),
    jm_nodes := some nodes,
    jm_type := some (prop_create model "type"),
    jm_title := some (prop_create metadata "title"),
    jm_entries := some (prop_create metadata "entries"),
    jm_url := some (prop_create root "url"),
    jm_pc := some pc,
    jm_nodesub := some { ps_track_destroy := true, ps_root := some nodes,
                         ps_courier := some pc } }

/-- `js_backend_open`: scan the global route list; on a miss return
`BACKEND_NOURI`; otherwise create the page (fresh handle `sys.next`), the
model, take the six node references, create the event queue (fresh handle
`sys.next + 1`) and the subscription, and spawn the worker. -/
def js_backend_open (E : Ext) (js_routes : List js_route) (sys : Sys)
    (url view : CStr) : open_result × Sys :=
  match js_backend_open_scan E url js_routes with
  | none => (open_result.BACKEND_NOURI, sys)
  | some (jsr, m) =>
    let np : nav_page_t :=
      { np_id := sys.next, np_url := url, np_view := view,
        np_prop_root := { root := sys.next, path := [] } }
    let pc : prop_courier_t := sys.next + 1
    let jm := js_backend_open_model jsr url m np.np_prop_root pc
    let held := [jm.jm_loading, jm.jm_nodes, jm.jm_type, jm.jm_title,
                 jm.jm_entries, jm.jm_url].filterMap id
    (open_result.page np,
     { next := sys.next + 2,
       prop_refs := held.foldl prop_ref_inc sys.prop_refs,
       couriers := pc :: sys.couriers,
       subs := jm.jm_nodesub.toList ++ sys.subs,
       threads := sys.threads ++ [jm] })

/-! ## `js_backend_search` -/

/-- The model one turn of the `LIST_FOREACH` of `js_backend_search` builds for
the searcher `jss`. -/
def js_backend_search_model (jss : js_searcher) (nodes : prop_t) (query : CStr) : js_model :=
  { js_model_create jss.jss_openfunc with
    jm_args := strvec_addp none query,
    jm_nodes := some nodes }

/-- One turn of the `LIST_FOREACH` of `js_backend_search`: create the model,
take a reference on the shared node, spawn the worker. -/
def js_backend_search_step (nodes : prop_t) (query : CStr) (sys : Sys)
    (jss : js_searcher) : Sys :=
  { sys with
    prop_refs := prop_ref_inc sys.prop_refs nodes,
    threads := sys.threads ++ [js_backend_search_model jss nodes query] }

/-- `js_backend_search`: one model and one worker per entry of the global
searcher list, all writing into `prop_create(model, "nodes")`. -/
def js_backend_search (js_searchers : List js_searcher) (sys : Sys)
    (model : prop_t) (query : CStr) : Sys :=
  js_searchers.foldl (js_backend_search_step (prop_create model "nodes") query) sys

/-! ## Registration -/

/-- Result of a native function called from a script: `JS_TRUE`, or `JS_FALSE`
with the message handed to `JS_ReportError`. -/
inductive JSBool where
  | JS_TRUE : JSBool
  | JS_FALSE (reported : String) : JSBool
deriving DecidableEq

/-- `strcspn` of the C library: length of the initial segment of `s` holding
no character of `reject`. -/
def strcspn : CStr → CStr → Nat
  | [], _ => 0
  | c :: s, reject => if c ∈ reject then 0 else strcspn s reject + 1

/-- The reject set `"()[].*?+$"` of `js_addURI`. -/
def metachars : CStr := ['(', ')', '[', ']', '.', '*', '?', '+', '$']

/-- `jsr_cmp`: `b->jsr_prio - a->jsr_prio` in `int` arithmetic. -/
def jsr_cmp (a b : js_route) : Int := int32 (b.jsr_prio - a.jsr_prio)

/-- The anchoring step of `js_addURI`: `'^'` is put in front unless the string
already starts with it. -/
def anchor (str : CStr) : CStr :=
  if str.head? ≠ some '^' then '^' :: str else str

/-- The value `js_addURI` stores in `jsr_prio`:
`strcspn(str, "()[].*?+$") ?: INT32_MAX`, narrowed to `int`. -/
def route_prio (str : CStr) : Int :=
  int32 (if strcspn str metachars ≠ 0 then (strcspn str metachars : Int) else INT32_MAX)

/-- `js_addURI` called on the plugin `jsp` with `argv[0]` converted to the
string `pattern` and `argv[1] = fn`. -/
def js_addURI (E : Ext) (reg : Registry) (jsp : Nat) (pattern : CStr) (fn : jsval) :
    JSBool × Registry :=
  if !E.JS_ObjectIsFunction fn then
    (JSBool.JS_FALSE "Argument is not a function", reg)
  else
    let str := anchor pattern
    if reg.js_routes.any (fun jsr => decide (str = jsr.jsr_pattern)) then
      (JSBool.JS_FALSE "URL already routed", reg)
    else if !E.regcomp str then
      (JSBool.JS_FALSE "Invalid regular expression", reg)
    else
      let jsr : js_route :=
        { addr := reg.next_addr, jsr_pattern := str, jsr_regex := str,
          jsr_openfunc := fn, jsr_prio := route_prio str }
      (JSBool.JS_TRUE,
       { js_routes := LIST_INSERT_SORTED jsr_cmp jsr reg.js_routes,
         js_searchers := reg.js_searchers,
         plugins := Function.update reg.plugins jsp
           { reg.plugins jsp with
             jsp_routes := LIST_INSERT_HEAD jsr (reg.plugins jsp).jsp_routes },
         next_addr := reg.next_addr + 1 })

/-- `js_addSearcher` called on the plugin `jsp` with `argv[0] = fn`. -/
def js_addSearcher (E : Ext) (reg : Registry) (jsp : Nat) (fn : jsval) :
    JSBool × Registry :=
  if !E.JS_ObjectIsFunction fn then
    (JSBool.JS_FALSE "Argument is not a function", reg)
  else
    let jss : js_searcher := { addr := reg.next_addr, jss_openfunc := fn }
    (JSBool.JS_TRUE,
     { js_routes := reg.js_routes,
       js_searchers := LIST_INSERT_HEAD jss reg.js_searchers,
       plugins := Function.update reg.plugins jsp
         { reg.plugins jsp with
           jsp_searchers := LIST_INSERT_HEAD jss (reg.plugins jsp).jsp_searchers },
       next_addr := reg.next_addr + 1 })

/-! ## Removal -/

/-- `js_route_delete`: unlink the route from the global list and from the
plugin list it is linked into. -/
def js_route_delete (reg : Registry) (jsr : js_route) : Registry :=
  { reg with
    js_routes := LIST_REMOVE js_route.addr jsr reg.js_routes,
    plugins := fun p =>
      { reg.plugins p with
        jsp_routes := LIST_REMOVE js_route.addr jsr (reg.plugins p).jsp_routes } }

/-- `js_searcher_delete`: unlink the searcher from the global list and from
the plugin list it is linked into. -/
def js_searcher_delete (reg : Registry) (jss : js_searcher) : Registry :=
  { reg with
    js_searchers := LIST_REMOVE js_searcher.addr jss reg.js_searchers,
    plugins := fun p =>
      { reg.plugins p with
        jsp_searchers := LIST_REMOVE js_searcher.addr jss (reg.plugins p).jsp_searchers } }

/-- First loop of `js_page_flush_from_plugin`:
`while((jsr = LIST_FIRST(&jsp->jsp_routes)) != NULL) js_route_delete(cx, jsr)`. -/
def flush_routes (reg : Registry) (jsp : Nat) : Registry :=
  match h : (reg.plugins jsp).jsp_routes with
  | [] => reg
  | jsr :: rest => flush_routes (js_route_delete reg jsr) jsp
termination_by (reg.plugins jsp).jsp_routes.length
decreasing_by
  simp only [js_route_delete, LIST_REMOVE, h]
  rw [List.filter_cons_of_neg (by simp)]
  exact Nat.lt_succ_of_le (List.length_filter_le _ _)

/-- Second loop of `js_page_flush_from_plugin`:
`while((jss = LIST_FIRST(&jsp->jsp_searchers)) != NULL) js_searcher_delete(cx, jss)`. -/
def flush_searchers (reg : Registry) (jsp : Nat) : Registry :=
  match h : (reg.plugins jsp).jsp_searchers with
  | [] => reg
  | jss :: rest => flush_searchers (js_searcher_delete reg jss) jsp
termination_by (reg.plugins jsp).jsp_searchers.length
decreasing_by
  simp only [js_searcher_delete, LIST_REMOVE, h]
  rw [List.filter_cons_of_neg (by simp)]
  exact Nat.lt_succ_of_le (List.length_filter_le _ _)

/-- `js_page_flush_from_plugin`. -/
def js_page_flush_from_plugin (reg : Registry) (jsp : Nat) : Registry :=
  flush_searchers (flush_routes reg jsp) jsp

/-! ## Script objects and handler calls -/

/-- Script object of class `model` made by `make_model_object`: the native
functions and the properties defined on it. Its private pointer is the model
it was made for. -/
structure JSObject where
  functions : List String
  properties : List String
deriving DecidableEq

/-- Value handed to a script function. -/
inductive js_arg where
  | object (o : JSObject) : js_arg
  | string (s : CStr) : js_arg
deriving DecidableEq

/-- A `JS_CallFunctionValue(cx, NULL, fn, argc, argv, &result)`: the function,
the count passed and the vector pushed. -/
structure js_call where
  fn : jsval
  argc : Int
  argv : List js_arg
deriving DecidableEq

/-- Modelled from the spec: `atomic_add(&v, incr)` (arch/atomic.h, not under
`src/`) adds `incr` to the counter and returns the value held before; the pair
is (returned value, stored value). -/
def atomic_add (v incr : Int) : Int × Int := (v, int32 (v + incr))

/-- `make_model_object`: a new object of class `model`, the model's reference
count raised by one, the two native functions and one setter per node the
model holds, then `paginator`. -/
def make_model_object (jm : js_model) : JSObject × js_model :=
  ({ functions := ["appendItem", "appendModel"],
     properties :=
       (if jm.jm_title ≠ none then ["title"] else []) ++
       (if jm.jm_entries ≠ none then ["entries"] else []) ++
       (if jm.jm_type ≠ none then ["type"] else []) ++
       (if jm.jm_loading ≠ none then ["loading"] else []) ++
       (if jm.jm_url ≠ none then ["url"] else []) ++ ["paginator"] },
   { jm with jm_refcount := (atomic_add jm.jm_refcount 1).2 })

/-- The interpreter's `JS_PushArguments(cx, &mark, format, ...)`: one value of
the variable argument list is converted per format character; `NULL` when the
interpreter cannot allocate the vector (`ok = false`). -/
def JS_PushArguments (ok : Bool) (format : CStr) (va : List js_arg) : Option (List js_arg) :=
  if ok then some (va.take format.length) else none

/-- The loop `while(i < 8 && jm->jm_args[i])` of `js_open_invoke` on the rest
of the argument vector, with the counter `i` and the format written so far. -/
def js_open_invoke_loop : List CStr → Nat → CStr → Nat × CStr
  | [], i, argfmt => (i, argfmt)
  | _ :: rest, i, argfmt =>
    if i < 8 then js_open_invoke_loop rest (i + 1) (argfmt ++ ['s']) else (i, argfmt)

/-- `js_open_invoke`: expose the model as a script object and call the handler
(`none` when `JS_PushArguments` returned `NULL`). -/
def js_open_invoke (ok : Bool) (jm : js_model) : js_model × Option js_call :=
  let objjm := make_model_object jm
  let obj := objjm.1
  let jm1 := objjm.2
  match jm1.jm_args with
  | some args =>
    let r := js_open_invoke_loop args 0 ['o']
    let i := r.1
    let argfmt := r.2
    let argc : Int := i + 1
    let va := js_arg.object obj ::
      (List.range 8).map (fun k => js_arg.string (if i > k then args.getD k [] else []))
    match JS_PushArguments ok argfmt va with
    | none => (jm1, none)
    | some argv => (jm1, some { fn := jm1.jm_openfunc, argc := argc, argv := argv })
  | none =>
    match JS_PushArguments ok ['o'] [js_arg.object obj] with
    | none => (jm1, none)
    | some argv => (jm1, some { fn := jm1.jm_openfunc, argc := 2, argv := argv })

/-! ## Release of a model -/

/-- A `js_model_t` on the heap together with the number of times
`js_model_destroy` has run on it. -/
structure model_cell where
  jm : js_model
  destroyed : Nat
deriving DecidableEq

/-- `js_model_destroy`: cancel the subscription, drop the reference held on
each node, destroy the event queue. -/
def js_model_destroy (sys : Sys) (jm : js_model) : Sys :=
  let held := [jm.jm_loading, jm.jm_nodes, jm.jm_type, jm.jm_title,
               jm.jm_entries, jm.jm_url].filterMap id
  { sys with
    subs := match jm.jm_nodesub with
      | some s => sys.subs.erase s
      | none => sys.subs,
    prop_refs := held.foldl prop_ref_dec sys.prop_refs,
    couriers := match jm.jm_pc with
      | some pc => sys.couriers.erase pc
      | none => sys.couriers }

/-- `js_model_release`: `if(atomic_add(&jm->jm_refcount, -1) == 1)
js_model_destroy(jm)`. -/
def js_model_release (sys : Sys) (cell : model_cell) : Sys × model_cell :=
  let r := atomic_add cell.jm.jm_refcount (-1)
  let jm1 := { cell.jm with jm_refcount := r.2 }
  if r.1 = 1 then
    (js_model_destroy sys jm1, { jm := jm1, destroyed := cell.destroyed + 1 })
  else (sys, { jm := jm1, destroyed := cell.destroyed })

/-- `model_finalize`, run by the interpreter when the script object is
collected: release the model behind the private pointer. -/
def model_finalize (sys : Sys) (cell : model_cell) : Sys × model_cell :=
  js_model_release sys cell

/-! ## Worker -/

/-- `js_setPaginator`, the setter of the `paginator` property. -/
def js_setPaginator (E : Ext) (jm : js_model) (v : jsval) : JSBool × js_model :=
  if !E.JSVAL_IS_OBJECT v || !E.JS_ObjectIsFunction v then
    (JSBool.JS_FALSE "Argument is not a function", jm)
  else (JSBool.JS_TRUE, { jm with jm_paginator := v })

/-- Type of an event carried by `PROP_EXT_EVENT` (`e_type_x`). -/
inductive event_type where
  | EVENT_APPEND_REQUEST : event_type
  | other (code : Nat) : event_type
deriving DecidableEq

/-- Notification handed to a subscription callback (`prop_event_t` and the
event it carries). -/
inductive prop_event where
  | PROP_DESTROYED : prop_event
  | PROP_EXT_EVENT (e_type_x : event_type) : prop_event
  | other (code : Nat) : prop_event
deriving DecidableEq

/-- A model in the hands of its worker, with the script calls made so far, in
order. -/
structure worker_state where
  jm : js_model
  calls : List js_call

/-- `js_model_fill`: call the paginator without arguments, if there is one. -/
def js_model_fill (w : worker_state) : worker_state :=
  if w.jm.jm_paginator = 0 then w
  else { w with calls := w.calls ++ [{ fn := w.jm.jm_paginator, argc := 0, argv := [] }] }

/-- `js_model_nodesub`, the callback of the subscription on the output
collection. -/
def js_model_nodesub (w : worker_state) : prop_event → worker_state
  | prop_event.PROP_DESTROYED => { w with jm := { w.jm with jm_run := 0 } }
  | prop_event.PROP_EXT_EVENT e =>
    if e = event_type.EVENT_APPEND_REQUEST then js_model_fill w else w
  | prop_event.other _ => w

/-- Where the worker stands: past the wait loop, blocked in
`prop_courier_wait` with nothing more delivered, or stopped on a wait called
with a `NULL` event queue. -/
inductive worker_status where
  | leaving : worker_status
  | waiting : worker_status
  | null_queue : worker_status
deriving DecidableEq

/-- The loop `while(jm->jm_run)` of `js_open_trampoline`; every
`prop_courier_wait` dispatches one batch of notifications to
`js_model_nodesub`. -/
def js_open_trampoline_wait : List (List prop_event) → worker_state →
    worker_state × worker_status
  | [], w =>
    if w.jm.jm_run ≠ 0 then
      (w, if w.jm.jm_pc = none then worker_status.null_queue else worker_status.waiting)
    else (w, worker_status.leaving)
  | batch :: rest, w =>
    if w.jm.jm_run ≠ 0 then
      if w.jm.jm_pc = none then (w, worker_status.null_queue)
      else js_open_trampoline_wait rest (batch.foldl js_model_nodesub w)
    else (w, worker_status.leaving)

/-- `js_open_trampoline` up to, not including, its final `js_model_release`:
the handler call, during which the script assigns the values `assigns` to the
`paginator` property, then the wait loop when a paginator is installed; `cx`
is the context `js_newctx` returned. -/
def js_open_trampoline_body (E : Ext) (ok : Bool) (assigns : List jsval)
    (deliveries : List (List prop_event)) (cx : Nat) (jm : js_model) :
    worker_state × worker_status :=
  let r := js_open_invoke ok jm
  let jm1 := match r.2 with
    | some _ => assigns.foldl (fun m v => (js_setPaginator E m v).2) r.1
    | none => r.1
  let w : worker_state := { jm := jm1, calls := r.2.toList }
  if jm1.jm_paginator ≠ 0 then
    js_open_trampoline_wait deliveries { w with jm := { jm1 with jm_cx := some cx } }
  else (w, worker_status.leaving)

/-- The exit of `js_open_trampoline`: `js_model_release(jm)`. -/
def js_open_trampoline_exit (sys : Sys) (cell : model_cell) : Sys × model_cell :=
  js_model_release sys cell

/-- `js_open_trampoline`: body, then the release once the worker leaves the
wait loop. -/
def js_open_trampoline (E : Ext) (ok : Bool) (assigns : List jsval)
    (deliveries : List (List prop_event)) (cx : Nat) (sys : Sys) (cell : model_cell) :
    Sys × model_cell × List js_call × worker_status :=
  let r := js_open_trampoline_body E ok assigns deliveries cx cell.jm
  if r.2 = worker_status.leaving then
    let rel := js_open_trampoline_exit sys { cell with jm := r.1.jm }
    (rel.1, rel.2, r.1.calls, r.2)
  else (sys, { cell with jm := r.1.jm }, r.1.calls, r.2)

/-! ## Nested models -/

/-- What `js_appendModel` leaves behind: the value it returns, the process
state, the nested model with the script object wrapping it (when one was
created), the item node, and whether `prop_destroy(item)` ran. -/
structure append_model_result where
  ret : JSBool
  sys : Sys
  cell : Option model_cell
  robj : Option JSObject
  item : Option prop_t
  discarded : Bool

/-- `js_appendModel` called on the script object of the model `parent`.
`args` is what `JS_ConvertArguments(cx, argc, argv, "s/o", &type, &metaobj)`
produced (`none` when it failed, otherwise the type string and whether a
metadata object was given); `JSVAL_VOID` is the interpreter's constant;
`prop_set_parent` is the property tree's function, true when it returns
non-zero because the parent cannot take the child. The item is a fresh root
(`prop_create(NULL, NULL)`, handle `sys.next`). Property values and the
location made by `backend_prop_make` are not tracked. -/
def js_appendModel (JSVAL_VOID : jsval) (prop_set_parent : prop_t → Option prop_t → Bool)
    (sys : Sys) (parent : js_model) (args : Option (CStr × Bool)) : append_model_result :=
  match args with
  | none =>
    { ret := JSBool.JS_FALSE "JS_ConvertArguments", sys := sys, cell := none, robj := none,
      item := none, discarded := false }
  | some _ =>
    let item : prop_t := { root := sys.next, path := [] }
    let metadata := prop_create item "metadata"
    let nodes := prop_create item "nodes"
    let type := prop_create item "type"
    let entries := prop_create metadata "entries"
    let jm : js_model :=
      { js_model_create JSVAL_VOID with
        jm_nodes := some nodes, jm_type := some type, jm_entries := some entries }
    let r := make_model_object jm
    { ret := JSBool.JS_TRUE,
      sys := { sys with
        next := sys.next + 1,
        prop_refs := [nodes, type, entries].foldl prop_ref_inc sys.prop_refs },
      cell := some { jm := r.2, destroyed := 0 },
      robj := some r.1,
      item := some item,
      discarded := prop_set_parent item parent.jm_nodes }

/-! ## Registry histories -/

/-- The calls that change the registry. `route_delete a` and
`searcher_delete a` stand for `js_route_delete` / `js_searcher_delete` on the
registered object at address `a`. -/
inductive RegistryOp where
  | addURI (jsp : Nat) (pattern : CStr) (fn : jsval) : RegistryOp
  | addSearcher (jsp : Nat) (fn : jsval) : RegistryOp
  | route_delete (a : Nat) : RegistryOp
  | searcher_delete (a : Nat) : RegistryOp
  | flush (jsp : Nat) : RegistryOp

/-- Effect of one call on the registry. A delete aimed at an address that
holds no registered object cannot be issued and leaves the registry as it is. -/
def RegistryOp.apply (E : Ext) (reg : Registry) : RegistryOp → Registry
  | RegistryOp.addURI jsp pattern fn => (js_addURI E reg jsp pattern fn).2
  | RegistryOp.addSearcher jsp fn => (js_addSearcher E reg jsp fn).2
  | RegistryOp.route_delete a =>
    match reg.js_routes.find? (fun jsr => jsr.addr == a) with
    | some jsr => js_route_delete reg jsr
    | none => reg
  | RegistryOp.searcher_delete a =>
    match reg.js_searchers.find? (fun jss => jss.addr == a) with
    | some jss => js_searcher_delete reg jss
    | none => reg
  | RegistryOp.flush jsp => js_page_flush_from_plugin reg jsp

/-- The registry after a history of calls, starting from the empty registry. -/
def run (E : Ext) (ops : List RegistryOp) : Registry :=
  ops.foldl (RegistryOp.apply E) Registry.empty

/-- The patterns a history tries to register are short enough for the `int`
length `js_addURI` computes (`int l = strlen(str)`, then `l + 2` bytes). -/
def RegistryOp.fits : RegistryOp → Prop
  | RegistryOp.addURI _ pattern _ => pattern.length + 2 ≤ 2147483647
  | _ => True

/-! ## A concrete matcher for worked examples -/

/-- Whether `lit` is an initial segment of `url`. -/
def starts_with : CStr → CStr → Bool
  | [], _ => true
  | _ :: _, [] => false
  | a :: lit, b :: url => a == b && starts_with lit url

/-- Match slots of a successful match: slot 0 is `[0, whole)`, slot 1 is
`group`, the other slots did not take part. -/
def sample_slots (whole : Nat) (group : regmatch_t) : Fin 8 → regmatch_t :=
  fun i =>
    if i = 0 then { rm_so := 0, rm_eo := whole }
    else if i = 1 then group
    else { rm_so := -1, rm_eo := -1 }

/-- A small matcher for anchored patterns made of literal text, optionally
followed by `.*` or by the group `(.*)`. -/
def sample_regexec (pattern url : CStr) : Option (Fin 8 → regmatch_t) :=
  let body := pattern.drop 1
  let n := body.length
  if body.drop (n - 4) = ['(', '.', '*', ')'] then
    if starts_with (body.take (n - 4)) url then
      some (sample_slots url.length { rm_so := (n - 4 : Nat), rm_eo := url.length })
    else none
  else if body.drop (n - 2) = ['.', '*'] then
    if starts_with (body.take (n - 2)) url then
      some (sample_slots url.length { rm_so := -1, rm_eo := -1 })
    else none
  else if starts_with body url then
    some (sample_slots n { rm_so := -1, rm_eo := -1 })
  else none

/-- Collaborators for the worked examples: every pattern compiles, matching is
`sample_regexec`, the object values are the even words and the function
values the even nonzero words. -/
def sampleExt : Ext :=
  { regcomp := fun _ => true,
    regexec := sample_regexec,
    JSVAL_IS_OBJECT := fun v => v % 2 == 0,
    JS_ObjectIsFunction := fun v => v != 0 && v % 2 == 0 }

/-- A process state with nothing allocated. -/
def Sys.start : Sys :=
  { next := 100, prop_refs := fun _ => 0, couriers := [], subs := [], threads := [] }

/-! ## Predicates on the registry -/

/-- Every stored priority is a non-negative `int`. -/
def prio_in_range (l : List js_route) : Prop :=
  ∀ r ∈ l, 0 ≤ r.jsr_prio ∧ r.jsr_prio ≤ INT32_MAX

/-- The field `jsr_prio` never grows along the list: each route has a priority
at least that of every route after it. -/
def prio_nonincreasing (l : List js_route) : Prop :=
  l.Pairwise (fun a b => b.jsr_prio ≤ a.jsr_prio)

/-- The route `js_addURI` links in when it succeeds. -/
def new_route (reg : Registry) (pattern : CStr) (fn : jsval) : js_route :=
  { addr := reg.next_addr, jsr_pattern := anchor pattern, jsr_regex := anchor pattern,
    jsr_openfunc := fn, jsr_prio := route_prio (anchor pattern) }

/-! ## Worked inputs -/

/-- The pattern `/foo`. -/
def pat_foo : CStr := ['/', 'f', 'o', 'o']

/-- The pattern `/f.*`. -/
def pat_f_any : CStr := ['/', 'f', '.', '*']

/-- The pattern `/bar/(.*)`. -/
def pat_bar_group : CStr := ['/', 'b', 'a', 'r', '/', '(', '.', '*', ')']

/-- The location `/foo`. -/
def loc_foo : CStr := ['/', 'f', 'o', 'o']

/-- The location `/bar/baz`. -/
def loc_bar_baz : CStr := ['/', 'b', 'a', 'r', '/', 'b', 'a', 'z']

/-- Registration of `/foo` (handler 2) and then `/f.*` (handler 4), both by
plugin 0. -/
def ops_literal_first : List RegistryOp :=
  [RegistryOp.addURI 0 pat_foo 2, RegistryOp.addURI 0 pat_f_any 4]

/-- Registration of `/f.*` (handler 4) and then `/foo` (handler 2), both by
plugin 0. -/
def ops_general_first : List RegistryOp :=
  [RegistryOp.addURI 0 pat_f_any 4, RegistryOp.addURI 0 pat_foo 2]

/-- The location `/fab`. -/
def loc_fab : CStr := ['/', 'f', 'a', 'b']

/-- The route `js_addURI` builds for `/foo` with handler 2, at address `a`. -/
def route_foo (a : Nat) : js_route :=
  { addr := a, jsr_pattern := anchor pat_foo, jsr_regex := anchor pat_foo,
    jsr_openfunc := 2, jsr_prio := route_prio (anchor pat_foo) }

/-- The route `js_addURI` builds for `/f.*` with handler 4, at address `a`. -/
def route_f_any (a : Nat) : js_route :=
  { addr := a, jsr_pattern := anchor pat_f_any, jsr_regex := anchor pat_f_any,
    jsr_openfunc := 4, jsr_prio := route_prio (anchor pat_f_any) }

/-- The pattern `foo`. -/
def pat_plain : CStr := ['f', 'o', 'o']

/-- The pattern `^foo`. -/
def pat_anchored : CStr := ['^', 'f', 'o', 'o']

/-! ## Reading of the match slots, in the words of the specification -/

/-- The capture groups 1..7 that took part in the match (`rm_so != -1`), in
increasing group order. -/
def participating (m : Fin 8 → regmatch_t) : List (Fin 8) :=
  ([1, 2, 3, 4, 5, 6, 7] : List (Fin 8)).filter (fun i => decide ((m i).rm_so ≠ -1))

/-- The substring `location[so, eo)`. -/
def location_slice (location : CStr) (so eo : Int) : CStr :=
  (location.take eo.toNat).drop so.toNat

/-- A match result whose participating slots lie inside the location:
`0 <= rm_so <= rm_eo <= strlen(location)`. -/
def slots_within (location : CStr) (m : Fin 8 → regmatch_t) : Prop :=
  ∀ i : Fin 8, (m i).rm_so ≠ -1 →
    0 ≤ (m i).rm_so ∧ (m i).rm_so ≤ (m i).rm_eo ∧ (m i).rm_eo ≤ (location.length : Int)

/-- The route `js_addURI` builds for `/bar/(.*)` with handler 6, at address `a`. -/
def route_bar_group (a : Nat) : js_route :=
  { addr := a, jsr_pattern := anchor pat_bar_group, jsr_regex := anchor pat_bar_group,
    jsr_openfunc := 6, jsr_prio := route_prio (anchor pat_bar_group) }

/-- Match slots of `/bar/(.*)` on `/bar/baz` under the sample matcher: the whole
match is `[0, 8)`, group 1 is `[5, 8)`. -/
def slots_bar_baz : Fin 8 → regmatch_t :=
  sample_slots 8 { rm_so := 5, rm_eo := 8 }

/-- No node is linked into the lists of two plugins: a route (a searcher) has
a single `jsr_plugin_link` (`jss_plugin_link`). -/
def Registry.nodes_apart (reg : Registry) : Prop :=
  ∀ p q, p ≠ q →
    (∀ r ∈ (reg.plugins p).jsp_routes, ∀ x ∈ (reg.plugins q).jsp_routes, r.addr ≠ x.addr) ∧
    (∀ s ∈ (reg.plugins p).jsp_searchers, ∀ x ∈ (reg.plugins q).jsp_searchers,
      s.addr ≠ x.addr)

/-- Every node of a plugin list lives at an address `calloc` has handed out. -/
def Registry.allocated (reg : Registry) : Prop :=
  ∀ p, (∀ r ∈ (reg.plugins p).jsp_routes, r.addr < reg.next_addr) ∧
    (∀ s ∈ (reg.plugins p).jsp_searchers, s.addr < reg.next_addr)

/-- Plugin 0 registers `/foo`, a searcher and `/f.*`; plugin 1 registers
`/bar/(.*)` and a searcher. -/
def ops_two_plugins : List RegistryOp :=
  [RegistryOp.addURI 0 pat_foo 2, RegistryOp.addSearcher 0 8,
   RegistryOp.addURI 1 pat_bar_group 6, RegistryOp.addSearcher 1 10,
   RegistryOp.addURI 0 pat_f_any 4]

/-- The model `js_backend_open` builds for `/bar/(.*)` opened at `/bar/baz` on
the page with root 100 and the event queue 101. -/
def sample_open_model : js_model :=
  js_backend_open_model (route_bar_group 2) loc_bar_baz slots_bar_baz
    { root := 100, path := [] } 101

/-- An append request, then the destruction of the output collection. -/
def sample_deliveries : List (List prop_event) :=
  [[prop_event.PROP_EXT_EVENT event_type.EVENT_APPEND_REQUEST], [prop_event.PROP_DESTROYED]]

/-- The model `sample_open_model` after its worker ran the handler, which
installed the paginator 12, and served `sample_deliveries`. -/
def sample_cell : model_cell :=
  { jm := (js_open_trampoline_body sampleExt true [12] sample_deliveries 1
      sample_open_model).1.jm,
    destroyed := 0 }

/-! ## Worked inputs for the worker and for nested models -/

/-- A worker holding `sample_open_model` with the paginator 12 installed,
before any notification. -/
def sample_worker : worker_state :=
  { jm := { sample_open_model with jm_paginator := 12 }, calls := [] }

/-- The destruction of the output collection followed, in the same delivery,
by an append request. -/
def destroy_then_append : List prop_event :=
  [prop_event.PROP_DESTROYED, prop_event.PROP_EXT_EVENT event_type.EVENT_APPEND_REQUEST]

/-- The value of the interpreter's `JSVAL_VOID` used in the worked examples. -/
def sample_void : jsval := 2147483649

/-- A property tree in which every parent takes the child. -/
def sample_set_parent : prop_t → Option prop_t → Bool := fun _ _ => false

/-- The handler of `sample_open_model` calls `appendModel("foo")`. -/
def sample_append : append_model_result :=
  js_appendModel sample_void sample_set_parent Sys.start sample_open_model
    (some (pat_plain, false))

/-- The nested model right after `sample_append`. -/
def sample_nested : model_cell :=
  sample_append.cell.getD { jm := js_model_create 0, destroyed := 0 }

/-! # Properties -/

/-! ## Route selection -/

theorem js_backend_open_scan_none (E : Ext) (url : CStr) (l : List js_route) :
    js_backend_open_scan E url l = none ↔
      ∀ jsr ∈ l, E.regexec jsr.jsr_regex url = none := by
  induction l with
  | nil => simp [js_backend_open_scan]
  | cons a t ih =>
    cases h : E.regexec a.jsr_regex url with
    | none => simp [js_backend_open_scan, h, ih]
    | some m => simp [js_backend_open_scan, h]

theorem js_backend_open_scan_first (E : Ext) (url : CStr) (pre post : List js_route)
    (jsr : js_route) (m : Fin 8 → regmatch_t)
    (hpre : ∀ r ∈ pre, E.regexec r.jsr_regex url = none)
    (hm : E.regexec jsr.jsr_regex url = some m) :
    js_backend_open_scan E url (pre ++ jsr :: post) = some (jsr, m) := by
  induction pre with
  | nil => simp [js_backend_open_scan, hm]
  | cons a t ih =>
    have ha : E.regexec a.jsr_regex url = none := hpre a (by simp)
    simp only [List.cons_append, js_backend_open_scan, ha]
    exact ih (fun r hr => hpre r (by simp [hr]))

theorem js_backend_open_scan_some (E : Ext) (url : CStr) (l : List js_route)
    (jsr : js_route) (m : Fin 8 → regmatch_t)
    (h : js_backend_open_scan E url l = some (jsr, m)) :
    ∃ pre post, l = pre ++ jsr :: post ∧
      (∀ r ∈ pre, E.regexec r.jsr_regex url = none) ∧
      E.regexec jsr.jsr_regex url = some m := by
  induction l with
  | nil => simp [js_backend_open_scan] at h
  | cons a t ih =>
    cases ha : E.regexec a.jsr_regex url with
    | some m1 =>
      simp only [js_backend_open_scan, ha, Option.some.injEq, Prod.mk.injEq] at h
      obtain ⟨rfl, rfl⟩ := h
      exact ⟨[], t, rfl, by simp, ha⟩
    | none =>
      simp only [js_backend_open_scan, ha] at h
      obtain ⟨pre, post, hl, hpre, hm⟩ := ih h
      refine ⟨a :: pre, post, by simp [hl], ?_, hm⟩
      intro r hr
      rcases List.mem_cons.mp hr with rfl | hr
      · exact ha
      · exact hpre r hr

/-- C1: `js_backend_open` returns `BACKEND_NOURI` exactly when no route of the
global list has a matcher accepting the location, and then nothing is created
(the process state is untouched); otherwise the page it returns runs the model
built from the first route, in list order, whose matcher accepts the location,
with the match slots of that route. -/
theorem js_backend_open_selects_first (E : Ext) (js_routes : List js_route)
    (sys : Sys) (url view : CStr) :
    ((js_backend_open E js_routes sys url view).1 = open_result.BACKEND_NOURI ↔
      ∀ jsr ∈ js_routes, E.regexec jsr.jsr_regex url = none) ∧
    ((js_backend_open E js_routes sys url view).1 = open_result.BACKEND_NOURI →
      (js_backend_open E js_routes sys url view).2 = sys) ∧
    (∀ (pre post : List js_route) (jsr : js_route) (m : Fin 8 → regmatch_t),
      js_routes = pre ++ jsr :: post →
      (∀ r ∈ pre, E.regexec r.jsr_regex url = none) →
      E.regexec jsr.jsr_regex url = some m →
      ∃ np, (js_backend_open E js_routes sys url view).1 = open_result.page np ∧
        (js_backend_open E js_routes sys url view).2.threads =
          sys.threads ++ [js_backend_open_model jsr url m np.np_prop_root (sys.next + 1)]) := by
  refine ⟨?_, ?_, ?_⟩
  · rw [← js_backend_open_scan_none]
    cases h : js_backend_open_scan E url js_routes with
    | none => simp [js_backend_open, h]
    | some p => simp [js_backend_open, h]
  · intro hres
    cases h : js_backend_open_scan E url js_routes with
    | none => simp [js_backend_open, h]
    | some p => simp [js_backend_open, h] at hres
  · intro pre post jsr m hl hpre hm
    have h := js_backend_open_scan_first E url pre post jsr m hpre hm
    rw [← hl] at h
    refine ⟨{ np_id := sys.next, np_url := url, np_view := view,
              np_prop_root := { root := sys.next, path := [] } }, ?_, ?_⟩
    · simp only [js_backend_open, h]
    · simp only [js_backend_open, h]

/-- Instance of C1: `/foo` is ahead of `/f.*` in the list, the location `/fab`
is refused by the first and accepted by the second. -/
theorem js_backend_open_selects_first_witness :
    ∃ np, (js_backend_open sampleExt [route_foo 2, route_f_any 1] Sys.start loc_fab []).1 =
        open_result.page np ∧
      (js_backend_open sampleExt [route_foo 2, route_f_any 1] Sys.start loc_fab []).2.threads =
        Sys.start.threads ++ [js_backend_open_model (route_f_any 1) loc_fab
          (sample_slots 4 { rm_so := -1, rm_eo := -1 }) np.np_prop_root (Sys.start.next + 1)] :=
  (js_backend_open_selects_first sampleExt [route_foo 2, route_f_any 1] Sys.start loc_fab []).2.2
    [route_foo 2] [] (route_f_any 1) (sample_slots 4 { rm_so := -1, rm_eo := -1 }) rfl
    (by intro r hr; rw [List.mem_singleton] at hr; subst hr; rfl) rfl

/-! ## Closed form of the flush loops -/

theorem LIST_REMOVE_then_filter {α : Type} (key : α → Nat) (a : α) (rest l : List α) :
    (LIST_REMOVE key a l).filter (fun x => !linked_in key (LIST_REMOVE key a rest) x) =
      l.filter (fun x => !linked_in key (a :: rest) x) := by
  simp only [LIST_REMOVE, List.filter_filter]
  apply List.filter_congr
  intro x _
  rw [Bool.eq_iff_iff]
  simp only [linked_in, List.any_eq_true, List.mem_filter, List.mem_cons, Bool.and_eq_true,
    Bool.not_eq_true', bne_iff_ne, ne_eq, beq_iff_eq, Bool.eq_false_iff]
  constructor
  · rintro ⟨h1, h2⟩ ⟨e, he, hk⟩
    rcases he with rfl | he
    · exact h2 hk.symm
    · exact h1 ⟨e, ⟨he, fun h => h2 (hk ▸ h)⟩, hk⟩
  · intro h
    refine ⟨?_, fun hx => h ⟨a, Or.inl rfl, hx.symm⟩⟩
    rintro ⟨e, ⟨he, _⟩, hk⟩
    exact h ⟨e, Or.inr he, hk⟩

theorem flush_routes_nil (reg : Registry) (jsp : Nat)
    (h : (reg.plugins jsp).jsp_routes = []) : flush_routes reg jsp = reg := by
  rw [flush_routes]
  split
  · rfl
  · rename_i jsr rest h2
    rw [h] at h2
    cases h2

theorem flush_routes_cons (reg : Registry) (jsp : Nat) (jsr : js_route) (rest : List js_route)
    (h : (reg.plugins jsp).jsp_routes = jsr :: rest) :
    flush_routes reg jsp = flush_routes (js_route_delete reg jsr) jsp := by
  rw [flush_routes]
  split
  · rename_i h2
    rw [h] at h2
    cases h2
  · rename_i jsr2 rest2 h2
    rw [h] at h2
    cases h2
    rfl

theorem flush_routes_closed (n : Nat) : ∀ (reg : Registry) (jsp : Nat),
    (reg.plugins jsp).jsp_routes.length = n →
    (flush_routes reg jsp).js_routes =
        reg.js_routes.filter (fun x => !linked_in js_route.addr (reg.plugins jsp).jsp_routes x) ∧
    (∀ p, ((flush_routes reg jsp).plugins p).jsp_routes =
        (reg.plugins p).jsp_routes.filter
          (fun x => !linked_in js_route.addr (reg.plugins jsp).jsp_routes x)) ∧
    (∀ p, ((flush_routes reg jsp).plugins p).jsp_searchers = (reg.plugins p).jsp_searchers) ∧
    (flush_routes reg jsp).js_searchers = reg.js_searchers ∧
    (flush_routes reg jsp).next_addr = reg.next_addr := by
  induction n using Nat.strong_induction_on with
  | _ n ih =>
    intro reg jsp hn
    cases hl : (reg.plugins jsp).jsp_routes with
    | nil =>
      rw [flush_routes_nil reg jsp hl]
      simp [linked_in, hl]
    | cons jsr rest =>
      rw [flush_routes_cons reg jsp jsr rest hl]
      have hlt : ((js_route_delete reg jsr).plugins jsp).jsp_routes.length < n := by
        rw [← hn]
        simp only [js_route_delete, LIST_REMOVE, hl]
        rw [List.filter_cons_of_neg (by simp)]
        exact Nat.lt_succ_of_le (List.length_filter_le _ _)
      obtain ⟨h1, h2, h3, h4, h5⟩ := ih _ hlt (js_route_delete reg jsr) jsp rfl
      have hrest : ((js_route_delete reg jsr).plugins jsp).jsp_routes =
          LIST_REMOVE js_route.addr jsr rest := by
        simp only [js_route_delete, hl]
        simp [LIST_REMOVE]
      rw [hrest] at h1 h2
      refine ⟨?_, ?_, ?_, ?_, ?_⟩
      · rw [h1]
        exact LIST_REMOVE_then_filter js_route.addr jsr rest reg.js_routes
      · intro p
        rw [h2 p]
        exact LIST_REMOVE_then_filter js_route.addr jsr rest (reg.plugins p).jsp_routes
      · intro p
        rw [h3 p]
        rfl
      · rw [h4]
        rfl
      · rw [h5]
        rfl

theorem flush_searchers_nil (reg : Registry) (jsp : Nat)
    (h : (reg.plugins jsp).jsp_searchers = []) : flush_searchers reg jsp = reg := by
  rw [flush_searchers]
  split
  · rfl
  · rename_i jss rest h2
    rw [h] at h2
    cases h2

theorem flush_searchers_cons (reg : Registry) (jsp : Nat) (jss : js_searcher) (rest : List js_searcher)
    (h : (reg.plugins jsp).jsp_searchers = jss :: rest) :
    flush_searchers reg jsp = flush_searchers (js_searcher_delete reg jss) jsp := by
  rw [flush_searchers]
  split
  · rename_i h2
    rw [h] at h2
    cases h2
  · rename_i jss2 rest2 h2
    rw [h] at h2
    cases h2
    rfl

theorem flush_searchers_closed (n : Nat) : ∀ (reg : Registry) (jsp : Nat),
    (reg.plugins jsp).jsp_searchers.length = n →
    (flush_searchers reg jsp).js_searchers =
        reg.js_searchers.filter (fun x => !linked_in js_searcher.addr (reg.plugins jsp).jsp_searchers x) ∧
    (∀ p, ((flush_searchers reg jsp).plugins p).jsp_searchers =
        (reg.plugins p).jsp_searchers.filter
          (fun x => !linked_in js_searcher.addr (reg.plugins jsp).jsp_searchers x)) ∧
    (∀ p, ((flush_searchers reg jsp).plugins p).jsp_routes = (reg.plugins p).jsp_routes) ∧
    (flush_searchers reg jsp).js_routes = reg.js_routes ∧
    (flush_searchers reg jsp).next_addr = reg.next_addr := by
  induction n using Nat.strong_induction_on with
  | _ n ih =>
    intro reg jsp hn
    cases hl : (reg.plugins jsp).jsp_searchers with
    | nil =>
      rw [flush_searchers_nil reg jsp hl]
      simp [linked_in, hl]
    | cons jss rest =>
      rw [flush_searchers_cons reg jsp jss rest hl]
      have hlt : ((js_searcher_delete reg jss).plugins jsp).jsp_searchers.length < n := by
        rw [← hn]
        simp only [js_searcher_delete, LIST_REMOVE, hl]
        rw [List.filter_cons_of_neg (by simp)]
        exact Nat.lt_succ_of_le (List.length_filter_le _ _)
      obtain ⟨h1, h2, h3, h4, h5⟩ := ih _ hlt (js_searcher_delete reg jss) jsp rfl
      have hrest : ((js_searcher_delete reg jss).plugins jsp).jsp_searchers =
          LIST_REMOVE js_searcher.addr jss rest := by
        simp only [js_searcher_delete, hl]
        simp [LIST_REMOVE]
      rw [hrest] at h1 h2
      refine ⟨?_, ?_, ?_, ?_, ?_⟩
      · rw [h1]
        exact LIST_REMOVE_then_filter js_searcher.addr jss rest reg.js_searchers
      · intro p
        rw [h2 p]
        exact LIST_REMOVE_then_filter js_searcher.addr jss rest (reg.plugins p).jsp_searchers
      · intro p
        rw [h3 p]
        rfl
      · rw [h4]
        rfl
      · rw [h5]
        rfl


theorem js_page_flush_from_plugin_closed (reg : Registry) (jsp : Nat) :
    (js_page_flush_from_plugin reg jsp).js_routes =
        reg.js_routes.filter (fun x => !linked_in js_route.addr (reg.plugins jsp).jsp_routes x) ∧
    (js_page_flush_from_plugin reg jsp).js_searchers =
        reg.js_searchers.filter
          (fun x => !linked_in js_searcher.addr (reg.plugins jsp).jsp_searchers x) ∧
    (∀ p, ((js_page_flush_from_plugin reg jsp).plugins p).jsp_routes =
        (reg.plugins p).jsp_routes.filter
          (fun x => !linked_in js_route.addr (reg.plugins jsp).jsp_routes x)) ∧
    (∀ p, ((js_page_flush_from_plugin reg jsp).plugins p).jsp_searchers =
        (reg.plugins p).jsp_searchers.filter
          (fun x => !linked_in js_searcher.addr (reg.plugins jsp).jsp_searchers x)) ∧
    (js_page_flush_from_plugin reg jsp).next_addr = reg.next_addr := by
  obtain ⟨r1, r2, r3, r4, r5⟩ := flush_routes_closed _ reg jsp rfl
  obtain ⟨s1, s2, s3, s4, s5⟩ := flush_searchers_closed _ (flush_routes reg jsp) jsp rfl
  unfold js_page_flush_from_plugin
  refine ⟨?_, ?_, ?_, ?_, ?_⟩
  · rw [s4, r1]
  · rw [s1, r4, r3]
  · intro p
    rw [s3, r2]
  · intro p
    rw [s2, r3, r3]
  · rw [s5, r5]

/-! ## Priority order of the global route list -/

theorem int32_of_small (x : Int) (h1 : -2147483648 ≤ x) (h2 : x ≤ 2147483647) :
    int32 x = x := by
  unfold int32
  omega

theorem strcspn_le (s reject : CStr) : strcspn s reject ≤ s.length := by
  induction s with
  | nil => simp [strcspn]
  | cons c t ih =>
    simp only [strcspn, List.length_cons]
    split
    · omega
    · omega

theorem anchor_length_le (str : CStr) : (anchor str).length ≤ str.length + 1 := by
  unfold anchor
  split
  · simp
  · omega

theorem anchor_head (str : CStr) : ∃ t, anchor str = '^' :: t := by
  unfold anchor
  split
  · exact ⟨str, rfl⟩
  · rename_i h
    cases str with
    | nil => simp at h
    | cons c t =>
      simp only [List.head?_cons, ne_eq, Option.some.injEq, not_not] at h
      exact ⟨t, by rw [h]⟩

theorem strcspn_anchor_pos (str : CStr) : 1 ≤ strcspn (anchor str) metachars := by
  obtain ⟨t, ht⟩ := anchor_head str
  rw [ht]
  simp [strcspn, metachars]

theorem route_prio_anchor (str : CStr) (h : str.length + 2 ≤ 2147483647) :
    route_prio (anchor str) = (strcspn (anchor str) metachars : Int) := by
  have h1 := strcspn_anchor_pos str
  have h2 := strcspn_le (anchor str) metachars
  have h3 := anchor_length_le str
  unfold route_prio
  rw [if_pos (by omega)]
  exact int32_of_small _ (by omega) (by omega)

theorem route_prio_range (str : CStr) (h : str.length + 2 ≤ 2147483647) :
    1 ≤ route_prio (anchor str) ∧ route_prio (anchor str) < INT32_MAX := by
  have h1 := strcspn_anchor_pos str
  have h2 := strcspn_le (anchor str) metachars
  have h3 := anchor_length_le str
  rw [route_prio_anchor str h]
  unfold INT32_MAX
  omega

theorem jsr_cmp_le_zero (a b : js_route)
    (ha : 0 ≤ a.jsr_prio ∧ a.jsr_prio ≤ INT32_MAX)
    (hb : 0 ≤ b.jsr_prio ∧ b.jsr_prio ≤ INT32_MAX) :
    jsr_cmp a b ≤ 0 ↔ b.jsr_prio ≤ a.jsr_prio := by
  unfold INT32_MAX at ha hb
  unfold jsr_cmp
  rw [int32_of_small _ (by omega) (by omega)]
  omega

theorem LIST_INSERT_SORTED_perm {α : Type} (cmp : α → α → Int) (x : α) (l : List α) :
    (LIST_INSERT_SORTED cmp x l).Perm (x :: l) := by
  induction l with
  | nil => simp [LIST_INSERT_SORTED]
  | cons e t ih =>
    simp only [LIST_INSERT_SORTED]
    split
    · exact List.Perm.refl _
    · exact (List.Perm.cons e ih).trans (List.Perm.swap x e t)

theorem LIST_INSERT_SORTED_mem {α : Type} (cmp : α → α → Int) (x y : α) (l : List α) :
    y ∈ LIST_INSERT_SORTED cmp x l ↔ y = x ∨ y ∈ l := by
  rw [(LIST_INSERT_SORTED_perm cmp x l).mem_iff, List.mem_cons]

theorem LIST_INSERT_SORTED_pairwise (x : js_route) (l : List js_route)
    (hx : 0 ≤ x.jsr_prio ∧ x.jsr_prio ≤ INT32_MAX)
    (hl : ∀ r ∈ l, 0 ≤ r.jsr_prio ∧ r.jsr_prio ≤ INT32_MAX)
    (hs : l.Pairwise (fun a b => b.jsr_prio ≤ a.jsr_prio)) :
    (LIST_INSERT_SORTED jsr_cmp x l).Pairwise (fun a b => b.jsr_prio ≤ a.jsr_prio) := by
  induction l with
  | nil => simp [LIST_INSERT_SORTED]
  | cons e t ih =>
    have he := hl e (by simp)
    rw [List.pairwise_cons] at hs
    simp only [LIST_INSERT_SORTED]
    split
    · rename_i hc
      rw [jsr_cmp_le_zero x e hx he] at hc
      refine List.Pairwise.cons ?_ (List.Pairwise.cons hs.1 hs.2)
      intro y hy
      rcases List.mem_cons.mp hy with rfl | hy
      · exact hc
      · exact le_trans (hs.1 y hy) hc
    · rename_i hc
      rw [jsr_cmp_le_zero x e hx he] at hc
      refine List.Pairwise.cons ?_ (ih (fun r hr => hl r (by simp [hr])) hs.2)
      intro y hy
      rcases (LIST_INSERT_SORTED_mem jsr_cmp x y t).mp hy with rfl | hy
      · omega
      · exact hs.1 y hy

theorem js_addURI_cases (E : Ext) (reg : Registry) (jsp : Nat) (pattern : CStr) (fn : jsval) :
    ((js_addURI E reg jsp pattern fn).1 ≠ JSBool.JS_TRUE ∧
      (js_addURI E reg jsp pattern fn).2 = reg) ∨
    ((js_addURI E reg jsp pattern fn).1 = JSBool.JS_TRUE ∧
      (∀ r ∈ reg.js_routes, r.jsr_pattern ≠ anchor pattern) ∧
      (js_addURI E reg jsp pattern fn).2.js_routes =
        LIST_INSERT_SORTED jsr_cmp (new_route reg pattern fn) reg.js_routes ∧
      (js_addURI E reg jsp pattern fn).2.js_searchers = reg.js_searchers ∧
      (js_addURI E reg jsp pattern fn).2.plugins =
        Function.update reg.plugins jsp
          { reg.plugins jsp with
            jsp_routes := new_route reg pattern fn :: (reg.plugins jsp).jsp_routes } ∧
      (js_addURI E reg jsp pattern fn).2.next_addr = reg.next_addr + 1) := by
  unfold js_addURI
  by_cases hf : E.JS_ObjectIsFunction fn = true
  · by_cases hd : reg.js_routes.any (fun jsr => decide (anchor pattern = jsr.jsr_pattern)) = true
    · left
      simp [hf, hd]
    · by_cases hc : E.regcomp (anchor pattern) = true
      · right
        simp only [hf, hd, hc, Bool.not_true, Bool.false_eq_true, if_false, new_route,
          LIST_INSERT_HEAD, and_self, and_true, true_and]
        intro r hr heq
        apply hd
        rw [List.any_eq_true]
        exact ⟨r, hr, by simp [heq]⟩
      · left
        simp [hf, hd, hc]
  · left
    simp [hf]

theorem foldl_apply_invariant (E : Ext) (P : Registry → Prop) (ok : RegistryOp → Prop)
    (step : ∀ reg op, ok op → P reg → P (RegistryOp.apply E reg op)) :
    ∀ (ops : List RegistryOp) (reg : Registry), (∀ op ∈ ops, ok op) → P reg →
      P (ops.foldl (RegistryOp.apply E) reg) := by
  intro ops
  induction ops with
  | nil => intro reg _ h; exact h
  | cons op t ih =>
    intro reg hok h
    simp only [List.foldl_cons]
    exact ih _ (fun o ho => hok o (by simp [ho])) (step reg op (hok op (by simp)) h)

theorem filter_keeps_order (l : List js_route) (f : js_route → Bool)
    (h : prio_in_range l ∧ prio_nonincreasing l) :
    prio_in_range (l.filter f) ∧ prio_nonincreasing (l.filter f) :=
  ⟨fun r hr => h.1 r (List.mem_of_mem_filter hr), List.Pairwise.filter f h.2⟩

theorem apply_keeps_order (E : Ext) (reg : Registry) (op : RegistryOp) (hfit : op.fits)
    (h : prio_in_range reg.js_routes ∧ prio_nonincreasing reg.js_routes) :
    prio_in_range (RegistryOp.apply E reg op).js_routes ∧
      prio_nonincreasing (RegistryOp.apply E reg op).js_routes := by
  cases op with
  | addURI jsp pattern fn =>
    simp only [RegistryOp.apply]
    rcases js_addURI_cases E reg jsp pattern fn with ⟨_, h2⟩ | ⟨_, _, h2, _⟩
    · rw [h2]; exact h
    · rw [h2]
      have hr := route_prio_range pattern hfit
      have hx : 0 ≤ (new_route reg pattern fn).jsr_prio ∧
          (new_route reg pattern fn).jsr_prio ≤ INT32_MAX := by
        simp only [new_route]
        constructor
        · omega
        · omega
      refine ⟨?_, LIST_INSERT_SORTED_pairwise _ _ hx h.1 h.2⟩
      intro r hr2
      rcases (LIST_INSERT_SORTED_mem _ _ _ _).mp hr2 with rfl | hr2
      · exact hx
      · exact h.1 r hr2
  | addSearcher jsp fn =>
    simp only [RegistryOp.apply, js_addSearcher]
    split
    · exact h
    · exact h
  | route_delete a =>
    simp only [RegistryOp.apply]
    split
    · exact filter_keeps_order _ _ h
    · exact h
  | searcher_delete a =>
    simp only [RegistryOp.apply]
    split
    · exact h
    · exact h
  | flush jsp =>
    simp only [RegistryOp.apply]
    rw [(js_page_flush_from_plugin_closed reg jsp).1]
    exact filter_keeps_order _ _ h

theorem run_keeps_order (E : Ext) (ops : List RegistryOp) (hfit : ∀ op ∈ ops, op.fits) :
    prio_in_range (run E ops).js_routes ∧ prio_nonincreasing (run E ops).js_routes :=
  foldl_apply_invariant E
    (fun reg => prio_in_range reg.js_routes ∧ prio_nonincreasing reg.js_routes)
    RegistryOp.fits (apply_keeps_order E) ops Registry.empty hfit
    ⟨by simp [prio_in_range, Registry.empty], by simp [prio_nonincreasing, Registry.empty]⟩

/-- C2: after any history of registrations, deletions and plugin flushes
starting from the empty registry (patterns within the `int` length that
`js_addURI` computes), `jsr_prio` is non-increasing along the global route
list: no route comes after a route with a smaller priority. -/
theorem js_routes_prio_nonincreasing (E : Ext) (ops : List RegistryOp)
    (hfit : ∀ op ∈ ops, op.fits) :
    prio_nonincreasing (run E ops).js_routes :=
  (run_keeps_order E ops hfit).2

/-- Instance of C2: five registrations by two plugins; the priorities along
the global list are 6, 5, 3. -/
theorem js_routes_prio_nonincreasing_witness :
    (∀ op ∈ ops_two_plugins, op.fits) ∧
    prio_nonincreasing (run sampleExt ops_two_plugins).js_routes ∧
    (run sampleExt ops_two_plugins).js_routes.map js_route.jsr_prio = [6, 5, 3] :=
  ⟨by intro op hop; simp only [ops_two_plugins, List.mem_cons, List.mem_singleton,
        List.mem_nil_iff, or_false] at hop; rcases hop with rfl | rfl | rfl | rfl | rfl <;>
        simp [RegistryOp.fits, pat_foo, pat_f_any, pat_bar_group],
   js_routes_prio_nonincreasing sampleExt ops_two_plugins
    (by intro op hop; simp only [ops_two_plugins, List.mem_cons, List.mem_singleton,
        List.mem_nil_iff, or_false] at hop; rcases hop with rfl | rfl | rfl | rfl | rfl <;>
        simp [RegistryOp.fits, pat_foo, pat_f_any, pat_bar_group]),
   by decide⟩

/-! ## Which of two matching routes is selected -/

theorem scan_selects_top_prio (E : Ext) (url : CStr) (l : List js_route)
    (jsr r : js_route) (m : Fin 8 → regmatch_t)
    (hs : prio_nonincreasing l)
    (h : js_backend_open_scan E url l = some (jsr, m))
    (hr : r ∈ l) (hm : E.regexec r.jsr_regex url ≠ none) :
    r.jsr_prio ≤ jsr.jsr_prio := by
  obtain ⟨pre, post, hl, hpre, _⟩ := js_backend_open_scan_some E url l jsr m h
  subst hl
  rcases List.mem_append.mp hr with hr | hr
  · exact absurd (hpre r hr) hm
  · rcases List.mem_cons.mp hr with rfl | hr
    · exact le_refl _
    · unfold prio_nonincreasing at hs
      rw [List.pairwise_append] at hs
      exact (List.pairwise_cons.mp hs.2.1).1 r hr

/-- C3, as the code has it: with `/foo` and `/f.*` registered in either order
under the sample matcher, which accepts the location `/foo` for both, opening
`/foo` runs the handler of `/foo` (2), not the handler of `/f.*` (4). -/
theorem general_pattern_does_not_win :
    (sample_regexec (anchor pat_foo) loc_foo).isSome = true ∧
    (sample_regexec (anchor pat_f_any) loc_foo).isSome = true ∧
    (js_backend_open sampleExt (run sampleExt ops_literal_first).js_routes
        Sys.start loc_foo []).2.threads.map js_model.jm_openfunc = [2] ∧
    (js_backend_open sampleExt (run sampleExt ops_general_first).js_routes
        Sys.start loc_foo []).2.threads.map js_model.jm_openfunc = [2] ∧
    (js_backend_open sampleExt (run sampleExt ops_literal_first).js_routes
        Sys.start loc_foo []).2.threads.map js_model.jm_openfunc ≠ [4] ∧
    (js_backend_open sampleExt (run sampleExt ops_general_first).js_routes
        Sys.start loc_foo []).2.threads.map js_model.jm_openfunc ≠ [4] := by
  decide

/-- C3 amended: among the registered routes that match a location, the one
selected has the highest `jsr_prio` (none of the matching routes has a higher
one); with `/foo` and `/f.*` registered in either order and a matcher under
which both accept `/foo`, opening `/foo` runs the model of the `/foo` route:
the literal pattern wins over the general one. -/
theorem js_backend_open_prefers_higher_prio (E : Ext) :
    (∀ (ops : List RegistryOp) (url : CStr) (jsr r : js_route) (m : Fin 8 → regmatch_t),
      (∀ op ∈ ops, op.fits) →
      js_backend_open_scan E url (run E ops).js_routes = some (jsr, m) →
      r ∈ (run E ops).js_routes → E.regexec r.jsr_regex url ≠ none →
      r.jsr_prio ≤ jsr.jsr_prio) ∧
    (∀ (fnLit fnGen : jsval) (jspLit jspGen : Nat) (mLit mGen : Fin 8 → regmatch_t)
      (sys : Sys) (view : CStr) (ops : List RegistryOp),
      E.JS_ObjectIsFunction fnLit = true → E.JS_ObjectIsFunction fnGen = true →
      E.regcomp (anchor pat_foo) = true → E.regcomp (anchor pat_f_any) = true →
      E.regexec (anchor pat_foo) loc_foo = some mLit →
      E.regexec (anchor pat_f_any) loc_foo = some mGen →
      (ops = [RegistryOp.addURI jspLit pat_foo fnLit, RegistryOp.addURI jspGen pat_f_any fnGen] ∨
       ops = [RegistryOp.addURI jspGen pat_f_any fnGen, RegistryOp.addURI jspLit pat_foo fnLit]) →
      ∃ jsr np, jsr.jsr_pattern = anchor pat_foo ∧ jsr.jsr_openfunc = fnLit ∧
        (js_backend_open E (run E ops).js_routes sys loc_foo view).1 = open_result.page np ∧
        (js_backend_open E (run E ops).js_routes sys loc_foo view).2.threads =
          sys.threads ++ [js_backend_open_model jsr loc_foo mLit np.np_prop_root (sys.next + 1)]) := by
  constructor
  · intro ops url jsr r m hfit hscan hr hm
    exact scan_selects_top_prio E url _ jsr r m (run_keeps_order E ops hfit).2 hscan hr hm
  · intro fnLit fnGen jspLit jspGen mLit mGen sys view ops hfL hfG hcL hcG hmL hmG hops
    have hne : anchor pat_f_any ≠ anchor pat_foo := by decide
    have hpL : route_prio (anchor pat_foo) = 5 := by decide
    have hpG : route_prio (anchor pat_f_any) = 3 := by decide
    have key : ∃ a g, (run E ops).js_routes =
        [{ addr := a, jsr_pattern := anchor pat_foo, jsr_regex := anchor pat_foo,
           jsr_openfunc := fnLit, jsr_prio := 5 },
         { addr := g, jsr_pattern := anchor pat_f_any, jsr_regex := anchor pat_f_any,
           jsr_openfunc := fnGen, jsr_prio := 3 }] := by
      rcases hops with rfl | rfl
      · refine ⟨1, 2, ?_⟩
        simp [run, RegistryOp.apply, js_addURI, Registry.empty, hfL, hfG, hcL, hcG, hne,
          hpL, hpG, LIST_INSERT_SORTED, jsr_cmp, int32]
      · refine ⟨2, 1, ?_⟩
        simp [run, RegistryOp.apply, js_addURI, Registry.empty, hfL, hfG, hcL, hcG, hne, hne.symm,
          hpL, hpG, LIST_INSERT_SORTED, jsr_cmp, int32]
    obtain ⟨a, g, hk⟩ := key
    refine ⟨{ addr := a, jsr_pattern := anchor pat_foo, jsr_regex := anchor pat_foo,
              jsr_openfunc := fnLit, jsr_prio := 5 },
            { np_id := sys.next, np_url := loc_foo, np_view := view,
              np_prop_root := { root := sys.next, path := [] } }, rfl, rfl, ?_, ?_⟩
    · simp only [js_backend_open, hk, js_backend_open_scan, hmL]
    · simp only [js_backend_open, hk, js_backend_open_scan, hmL]

/-- Instance of C3 amended: `/f.*` registered first, `/foo` second, sample
matcher. -/
theorem js_backend_open_prefers_higher_prio_witness :
    ∃ jsr np, jsr.jsr_pattern = anchor pat_foo ∧ jsr.jsr_openfunc = 2 ∧
      (js_backend_open sampleExt (run sampleExt ops_general_first).js_routes
        Sys.start loc_foo []).1 = open_result.page np ∧
      (js_backend_open sampleExt (run sampleExt ops_general_first).js_routes
        Sys.start loc_foo []).2.threads =
        Sys.start.threads ++ [js_backend_open_model jsr loc_foo
          (sample_slots 4 { rm_so := -1, rm_eo := -1 }) np.np_prop_root (Sys.start.next + 1)] :=
  (js_backend_open_prefers_higher_prio sampleExt).2 2 4 0 0
    (sample_slots 4 { rm_so := -1, rm_eo := -1 }) (sample_slots 4 { rm_so := -1, rm_eo := -1 })
    Sys.start [] ops_general_first rfl rfl rfl rfl rfl rfl (Or.inr rfl)

/-! ## The stored priority -/

/-- C4 at a pattern without metacharacter: registering `/foo` succeeds, the
stored text `^/foo` holds none of the characters `( ) [ ] . * ? + $`, and the
stored priority is 5, the length of the stored text, not `INT32_MAX`. -/
theorem literal_pattern_prio_is_length :
    (js_addURI sampleExt Registry.empty 0 pat_foo 2).1 = JSBool.JS_TRUE ∧
    (js_addURI sampleExt Registry.empty 0 pat_foo 2).2.js_routes.map js_route.jsr_pattern =
      [['^', '/', 'f', 'o', 'o']] ∧
    (∀ c ∈ anchor pat_foo, c ∉ metachars) ∧
    (js_addURI sampleExt Registry.empty 0 pat_foo 2).2.js_routes.map js_route.jsr_prio = [5] ∧
    (js_addURI sampleExt Registry.empty 0 pat_foo 2).2.js_routes.map js_route.jsr_prio ≠
      [INT32_MAX] := by
  decide

/-! ## Duplicate patterns -/

theorem apply_keeps_patterns_nodup (E : Ext) (reg : Registry) (op : RegistryOp)
    (h : (reg.js_routes.map js_route.jsr_pattern).Nodup) :
    ((RegistryOp.apply E reg op).js_routes.map js_route.jsr_pattern).Nodup := by
  have hfilter : ∀ f : js_route → Bool,
      ((reg.js_routes.filter f).map js_route.jsr_pattern).Nodup :=
    fun f => List.Nodup.sublist (List.Sublist.map _ (List.filter_sublist _)) h
  cases op with
  | addURI jsp pattern fn =>
    simp only [RegistryOp.apply]
    rcases js_addURI_cases E reg jsp pattern fn with ⟨_, h2⟩ | ⟨_, hnew, h2, _⟩
    · rw [h2]; exact h
    · rw [h2]
      have hp := (LIST_INSERT_SORTED_perm jsr_cmp (new_route reg pattern fn) reg.js_routes).map
        js_route.jsr_pattern
      rw [hp.nodup_iff, List.map_cons, List.nodup_cons]
      refine ⟨?_, h⟩
      intro hmem
      obtain ⟨r, hr, hrp⟩ := List.mem_map.mp hmem
      exact hnew r hr hrp
  | addSearcher jsp fn =>
    simp only [RegistryOp.apply, js_addSearcher]
    split
    · exact h
    · exact h
  | route_delete a =>
    simp only [RegistryOp.apply]
    split
    · exact hfilter _
    · exact h
  | searcher_delete a =>
    simp only [RegistryOp.apply]
    split
    · exact h
    · exact h
  | flush jsp =>
    simp only [RegistryOp.apply]
    rw [(js_page_flush_from_plugin_closed reg jsp).1]
    exact hfilter _

theorem run_patterns_nodup (E : Ext) (ops : List RegistryOp) :
    ((run E ops).js_routes.map js_route.jsr_pattern).Nodup :=
  foldl_apply_invariant E (fun reg => (reg.js_routes.map js_route.jsr_pattern).Nodup)
    (fun _ => True) (fun reg op _ h => apply_keeps_patterns_nodup E reg op h)
    ops Registry.empty (fun _ _ => trivial) (by simp [Registry.empty])

theorem duplicate_report_iff (E : Ext) (reg : Registry) (jsp : Nat) (pattern : CStr)
    (fn : jsval) (hfn : E.JS_ObjectIsFunction fn = true) :
    (js_addURI E reg jsp pattern fn).1 = JSBool.JS_FALSE "URL already routed" ↔
      ∃ r ∈ reg.js_routes, r.jsr_pattern = anchor pattern := by
  unfold js_addURI
  by_cases hd : reg.js_routes.any (fun jsr => decide (anchor pattern = jsr.jsr_pattern)) = true
  · simp only [hfn, hd, Bool.not_true, Bool.false_eq_true, if_false, if_true, true_iff]
    obtain ⟨r, hr, hrp⟩ := List.any_eq_true.mp hd
    exact ⟨r, hr, (of_decide_eq_true hrp).symm⟩
  · have hno : ¬ ∃ r ∈ reg.js_routes, r.jsr_pattern = anchor pattern := by
      rintro ⟨r, hr, hrp⟩
      exact hd (List.any_eq_true.mpr ⟨r, hr, by simp [hrp]⟩)
    by_cases hc : E.regcomp (anchor pattern) = true
    · simp [hfn, hd, hc, hno]
    · simp [hfn, hd, hc, hno]

theorem one_entry_of_nodup (l : List js_route) (x : CStr)
    (hnd : (l.map js_route.jsr_pattern).Nodup) (hx : ∃ r ∈ l, r.jsr_pattern = x) :
    (l.filter (fun r => decide (r.jsr_pattern = x))).length = 1 := by
  induction l with
  | nil => simp at hx
  | cons a t ih =>
    rw [List.map_cons, List.nodup_cons] at hnd
    by_cases ha : a.jsr_pattern = x
    · have hnone : t.filter (fun r => decide (r.jsr_pattern = x)) = [] := by
        rw [List.filter_eq_nil_iff]
        intro r hr hrx
        exact hnd.1 (List.mem_map.mpr ⟨r, hr, by rw [of_decide_eq_true hrx, ha]⟩)
      rw [List.filter_cons_of_pos (by simp [ha]), hnone]
      rfl
    · rw [List.filter_cons_of_neg (by simp [ha])]
      apply ih hnd.2
      obtain ⟨r, hr, hrx⟩ := hx
      rcases List.mem_cons.mp hr with rfl | hr
      · exact absurd hrx ha
      · exact ⟨r, hr, hrx⟩

/-- C5: given a callable handler, `js_addURI` fails with "URL already routed"
exactly when the anchored form of the pattern equals the stored pattern of a
route of the global list (so two spellings with the same anchored form, such
as `foo` and `^foo`, collide); on that failure the registry, with the global
list and every plugin list, is returned as it was, and in a registry reached
from the empty one the global list then holds exactly one entry with that
pattern. -/
theorem js_addURI_duplicate (E : Ext) (reg : Registry) (jsp : Nat) (pattern : CStr)
    (fn : jsval) (hfn : E.JS_ObjectIsFunction fn = true) :
    ((js_addURI E reg jsp pattern fn).1 = JSBool.JS_FALSE "URL already routed" ↔
      ∃ r ∈ reg.js_routes, r.jsr_pattern = anchor pattern) ∧
    (∀ other : CStr, anchor other = anchor pattern →
      ((js_addURI E reg jsp other fn).1 = JSBool.JS_FALSE "URL already routed" ↔
        (js_addURI E reg jsp pattern fn).1 = JSBool.JS_FALSE "URL already routed")) ∧
    (anchor pattern = if pattern.head? = some '^' then pattern else '^' :: pattern) ∧
    ((js_addURI E reg jsp pattern fn).1 = JSBool.JS_FALSE "URL already routed" →
      (js_addURI E reg jsp pattern fn).2 = reg) ∧
    (∀ ops : List RegistryOp, reg = run E ops →
      (js_addURI E reg jsp pattern fn).1 = JSBool.JS_FALSE "URL already routed" →
      ((js_addURI E reg jsp pattern fn).2.js_routes.filter
        (fun r => decide (r.jsr_pattern = anchor pattern))).length = 1) := by
  have hiff := duplicate_report_iff E reg jsp pattern fn hfn
  have hsame : (js_addURI E reg jsp pattern fn).1 = JSBool.JS_FALSE "URL already routed" →
      (js_addURI E reg jsp pattern fn).2 = reg := by
    intro hres
    rcases js_addURI_cases E reg jsp pattern fn with ⟨_, h2⟩ | ⟨h1, _⟩
    · exact h2
    · rw [h1] at hres
      cases hres
  refine ⟨hiff, ?_, ?_, hsame, ?_⟩
  · intro other ho
    rw [duplicate_report_iff E reg jsp other fn hfn, hiff, ho]
  · unfold anchor
    by_cases hh : pattern.head? = some '^'
    · simp [hh]
    · simp [hh]
  · intro ops hreg hres
    rw [hsame hres]
    obtain ⟨r, hr, hrp⟩ := hiff.mp hres
    have hnd := run_patterns_nodup E ops
    rw [← hreg] at hnd
    exact one_entry_of_nodup reg.js_routes (anchor pattern) hnd ⟨r, hr, hrp⟩

/-- Instance of C5: `foo` is registered, then `^foo` is offered by another
plugin. -/
theorem js_addURI_duplicate_witness :
    (js_addURI sampleExt (run sampleExt [RegistryOp.addURI 0 pat_plain 2]) 1 pat_anchored 4).1 =
      JSBool.JS_FALSE "URL already routed" ∧
    (js_addURI sampleExt (run sampleExt [RegistryOp.addURI 0 pat_plain 2]) 1 pat_anchored 4).2 =
      run sampleExt [RegistryOp.addURI 0 pat_plain 2] ∧
    ((js_addURI sampleExt (run sampleExt [RegistryOp.addURI 0 pat_plain 2]) 1
      pat_anchored 4).2.js_routes.filter
        (fun r => decide (r.jsr_pattern = anchor pat_anchored))).length = 1 :=
  have h := js_addURI_duplicate sampleExt (run sampleExt [RegistryOp.addURI 0 pat_plain 2]) 1
    pat_anchored 4 (by decide)
  have hres : (js_addURI sampleExt (run sampleExt [RegistryOp.addURI 0 pat_plain 2]) 1
      pat_anchored 4).1 = JSBool.JS_FALSE "URL already routed" := by decide
  ⟨hres, h.2.2.2.1 hres, h.2.2.2.2 [RegistryOp.addURI 0 pat_plain 2] rfl hres⟩

/-! ## Positional arguments of a route model -/

theorem js_backend_open_arg_foldl (url : CStr) (m : Fin 8 → regmatch_t) :
    ∀ (idx : List (Fin 8)) (acc : Option (List CStr)),
      (idx.foldl (js_backend_open_arg url m) acc).getD [] =
        acc.getD [] ++
          (idx.filter (fun i => decide ((m i).rm_so ≠ -1))).map
            (fun i => (url.drop (m i).rm_so.toNat).take ((m i).rm_eo - (m i).rm_so).toNat) ∧
      ((idx.foldl (js_backend_open_arg url m) acc) = none ↔
        acc = none ∧ idx.filter (fun i => decide ((m i).rm_so ≠ -1)) = []) := by
  intro idx
  induction idx with
  | nil => intro acc; simp
  | cons i t ih =>
    intro acc
    simp only [List.foldl_cons]
    by_cases hi : (m i).rm_so = -1
    · have hstep : js_backend_open_arg url m acc i = acc := by
        simp [js_backend_open_arg, hi]
      rw [hstep, List.filter_cons_of_neg (by simp [hi])]
      exact ih acc
    · have hstep : js_backend_open_arg url m acc i =
          some (acc.getD [] ++
            [(url.drop (m i).rm_so.toNat).take ((m i).rm_eo - (m i).rm_so).toNat]) := by
        simp [js_backend_open_arg, hi, strvec_addpn]
      rw [hstep, List.filter_cons_of_pos (by simp [hi])]
      obtain ⟨h1, h2⟩ := ih (some (acc.getD [] ++
        [(url.drop (m i).rm_so.toNat).take ((m i).rm_eo - (m i).rm_so).toNat]))
      refine ⟨?_, ?_⟩
      · rw [h1]
        simp
      · rw [h2]
        simp

theorem slice_eq (url : CStr) (so eo : Int) (h1 : 0 ≤ so) (h2 : so ≤ eo) :
    (url.drop so.toNat).take (eo - so).toNat = location_slice url so eo := by
  unfold location_slice
  rw [List.drop_take]
  congr 1
  omega

theorem slice_length (url : CStr) (so eo : Int) (h1 : 0 ≤ so) (h2 : so ≤ eo)
    (h3 : eo ≤ (url.length : Int)) :
    ((location_slice url so eo).length : Int) = eo - so := by
  unfold location_slice
  rw [List.length_drop, List.length_take]
  omega

/-- C6: when the scan of `js_backend_open` ends on a route with match slots
lying inside the location, the worker's model has as positional arguments
exactly the substrings `location[rm_so, rm_eo)` of the groups 1..7 with
`rm_so != -1`, in increasing group order, the other groups skipped and group 0
never used; the argument vector stays `NULL` exactly when no group took part;
there are at most 7 arguments and each has length `rm_eo - rm_so`. -/
theorem js_backend_open_args_are_groups (E : Ext) (js_routes : List js_route) (sys : Sys)
    (url view : CStr) (jsr : js_route) (m : Fin 8 → regmatch_t)
    (hscan : js_backend_open_scan E url js_routes = some (jsr, m))
    (hwf : slots_within url m) :
    ∃ jm, (js_backend_open E js_routes sys url view).2.threads = sys.threads ++ [jm] ∧
      jm.jm_openfunc = jsr.jsr_openfunc ∧
      jm.jm_args.getD [] =
        (participating m).map (fun i => location_slice url (m i).rm_so (m i).rm_eo) ∧
      (jm.jm_args = none ↔ participating m = []) ∧
      (0 : Fin 8) ∉ participating m ∧
      (jm.jm_args.getD []).length ≤ 7 ∧
      (∀ i ∈ participating m,
        ((location_slice url (m i).rm_so (m i).rm_eo).length : Int) =
          (m i).rm_eo - (m i).rm_so) := by
  obtain ⟨h1, h2⟩ := js_backend_open_arg_foldl url m [1, 2, 3, 4, 5, 6, 7] none
  have hargs : (js_backend_open_args url m).getD [] =
      (participating m).map (fun i => location_slice url (m i).rm_so (m i).rm_eo) := by
    unfold js_backend_open_args participating
    rw [h1]
    simp only [Option.getD_none, List.nil_append]
    apply List.map_congr_left
    intro i hi
    have hso : (m i).rm_so ≠ -1 := of_decide_eq_true (List.mem_filter.mp hi).2
    obtain ⟨ha, hb, _⟩ := hwf i hso
    exact slice_eq url _ _ ha hb
  refine ⟨js_backend_open_model jsr url m { root := sys.next, path := [] } (sys.next + 1),
    ?_, rfl, hargs, ?_, ?_, ?_, ?_⟩
  · simp only [js_backend_open, hscan]
  · show js_backend_open_args url m = none ↔ participating m = []
    unfold js_backend_open_args participating
    rw [h2]
    simp
  · unfold participating
    intro h0
    have := (List.mem_filter.mp h0).1
    revert this
    decide
  · show ((js_backend_open_args url m).getD []).length ≤ 7
    rw [hargs, List.length_map]
    unfold participating
    exact le_trans (List.length_filter_le _ _) (by decide)
  · intro i hi
    have hso : (m i).rm_so ≠ -1 := by
      unfold participating at hi
      exact of_decide_eq_true (List.mem_filter.mp hi).2
    obtain ⟨ha, hb, hc⟩ := hwf i hso
    exact slice_length url _ _ ha hb hc

/-- Instance of C6: `/bar/(.*)` opened at `/bar/baz`; the one argument is `baz`. -/
theorem js_backend_open_args_are_groups_witness :
    (∃ jm, (js_backend_open sampleExt [route_foo 1, route_bar_group 2] Sys.start
          loc_bar_baz []).2.threads = Sys.start.threads ++ [jm] ∧
      jm.jm_openfunc = (route_bar_group 2).jsr_openfunc ∧
      jm.jm_args.getD [] = (participating slots_bar_baz).map
        (fun i => location_slice loc_bar_baz (slots_bar_baz i).rm_so (slots_bar_baz i).rm_eo) ∧
      (jm.jm_args = none ↔ participating slots_bar_baz = []) ∧
      (0 : Fin 8) ∉ participating slots_bar_baz ∧
      (jm.jm_args.getD []).length ≤ 7 ∧
      (∀ i ∈ participating slots_bar_baz,
        ((location_slice loc_bar_baz (slots_bar_baz i).rm_so (slots_bar_baz i).rm_eo).length : Int) =
          (slots_bar_baz i).rm_eo - (slots_bar_baz i).rm_so)) ∧
    (js_backend_open sampleExt [route_foo 1, route_bar_group 2] Sys.start
        loc_bar_baz []).2.threads.map js_model.jm_args = [some [['b', 'a', 'z']]] :=
  ⟨js_backend_open_args_are_groups sampleExt [route_foo 1, route_bar_group 2] Sys.start
      loc_bar_baz [] (route_bar_group 2) slots_bar_baz rfl
      (by unfold slots_within; decide),
   by decide⟩

/-! ## Flushing a plugin -/

theorem shrink_keeps_apart (reg reg2 : Registry)
    (hr : ∀ p, ∀ r ∈ (reg2.plugins p).jsp_routes, r ∈ (reg.plugins p).jsp_routes)
    (hs : ∀ p, ∀ s ∈ (reg2.plugins p).jsp_searchers, s ∈ (reg.plugins p).jsp_searchers)
    (hn : reg.next_addr ≤ reg2.next_addr)
    (h : reg.nodes_apart ∧ reg.allocated) :
    reg2.nodes_apart ∧ reg2.allocated := by
  constructor
  · intro p q hpq
    exact ⟨fun r hr1 x hx => (h.1 p q hpq).1 r (hr p r hr1) x (hr q x hx),
           fun s hs1 x hx => (h.1 p q hpq).2 s (hs p s hs1) x (hs q x hx)⟩
  · intro p
    exact ⟨fun r hr1 => lt_of_lt_of_le ((h.2 p).1 r (hr p r hr1)) hn,
           fun s hs1 => lt_of_lt_of_le ((h.2 p).2 s (hs p s hs1)) hn⟩

theorem js_addURI_keeps_apart (E : Ext) (reg : Registry) (jsp : Nat) (pattern : CStr)
    (fn : jsval) (h : reg.nodes_apart ∧ reg.allocated) :
    (js_addURI E reg jsp pattern fn).2.nodes_apart ∧
      (js_addURI E reg jsp pattern fn).2.allocated := by
  rcases js_addURI_cases E reg jsp pattern fn with ⟨_, h2⟩ | ⟨_, _, _, _, hp, hn⟩
  · rw [h2]; exact h
  · have hroutes : ∀ p, ∀ r ∈ ((js_addURI E reg jsp pattern fn).2.plugins p).jsp_routes,
        (r ∈ (reg.plugins p).jsp_routes) ∨ (p = jsp ∧ r.addr = reg.next_addr) := by
      intro p r hr
      rw [hp] at hr
      by_cases hpj : p = jsp
      · subst hpj
        simp only [Function.update_same, List.mem_cons] at hr
        rcases hr with rfl | hr
        · exact Or.inr ⟨rfl, rfl⟩
        · exact Or.inl hr
      · rw [Function.update_noteq hpj] at hr
        exact Or.inl hr
    have hsearch : ∀ p, ((js_addURI E reg jsp pattern fn).2.plugins p).jsp_searchers =
        (reg.plugins p).jsp_searchers := by
      intro p
      rw [hp]
      by_cases hpj : p = jsp
      · subst hpj
        simp
      · rw [Function.update_noteq hpj]
    constructor
    · intro p q hpq
      refine ⟨?_, ?_⟩
      · intro r hr x hx
        rcases hroutes p r hr with hr1 | ⟨hpj, hra⟩
        · rcases hroutes q x hx with hx1 | ⟨hqj, hxa⟩
          · exact (h.1 p q hpq).1 r hr1 x hx1
          · have := (h.2 p).1 r hr1
            omega
        · rcases hroutes q x hx with hx1 | ⟨hqj, hxa⟩
          · have := (h.2 q).1 x hx1
            omega
          · exact absurd (hpj.trans hqj.symm) hpq
      · intro s hs x hx
        rw [hsearch] at hs hx
        exact (h.1 p q hpq).2 s hs x hx
    · intro p
      rw [hn]
      refine ⟨?_, ?_⟩
      · intro r hr
        rcases hroutes p r hr with hr1 | ⟨_, hra⟩
        · have := (h.2 p).1 r hr1
          omega
        · omega
      · intro s hs
        rw [hsearch] at hs
        have := (h.2 p).2 s hs
        omega

theorem js_addSearcher_keeps_apart (E : Ext) (reg : Registry) (jsp : Nat)
    (fn : jsval) (h : reg.nodes_apart ∧ reg.allocated) :
    (js_addSearcher E reg jsp fn).2.nodes_apart ∧
      (js_addSearcher E reg jsp fn).2.allocated := by
  unfold js_addSearcher
  by_cases hf : E.JS_ObjectIsFunction fn = true
  · simp only [hf, Bool.not_true, Bool.false_eq_true, if_false, LIST_INSERT_HEAD]
    have hsearch : ∀ p s, s ∈ ((Function.update reg.plugins jsp
          { jsp_routes := (reg.plugins jsp).jsp_routes,
            jsp_searchers := { addr := reg.next_addr, jss_openfunc := fn } ::
              (reg.plugins jsp).jsp_searchers }) p).jsp_searchers →
        (s ∈ (reg.plugins p).jsp_searchers) ∨ (p = jsp ∧ s.addr = reg.next_addr) := by
      intro p s hs
      by_cases hpj : p = jsp
      · subst hpj
        simp only [Function.update_same, List.mem_cons] at hs
        rcases hs with rfl | hs
        · exact Or.inr ⟨rfl, rfl⟩
        · exact Or.inl hs
      · rw [Function.update_noteq hpj] at hs
        exact Or.inl hs
    have hroutes : ∀ p, ((Function.update reg.plugins jsp
          { jsp_routes := (reg.plugins jsp).jsp_routes,
            jsp_searchers := { addr := reg.next_addr, jss_openfunc := fn } ::
              (reg.plugins jsp).jsp_searchers }) p).jsp_routes =
        (reg.plugins p).jsp_routes := by
      intro p
      by_cases hpj : p = jsp
      · subst hpj
        simp
      · rw [Function.update_noteq hpj]
    constructor
    · intro p q hpq
      refine ⟨?_, ?_⟩
      · intro r hr x hx
        simp only [hroutes] at hr hx
        exact (h.1 p q hpq).1 r hr x hx
      · intro s hs x hx
        rcases hsearch p s hs with hs1 | ⟨hpj, hsa⟩
        · rcases hsearch q x hx with hx1 | ⟨hqj, hxa⟩
          · exact (h.1 p q hpq).2 s hs1 x hx1
          · have := (h.2 p).2 s hs1
            omega
        · rcases hsearch q x hx with hx1 | ⟨hqj, hxa⟩
          · have := (h.2 q).2 x hx1
            omega
          · exact absurd (hpj.trans hqj.symm) hpq
    · intro p
      refine ⟨?_, ?_⟩
      · intro r hr
        simp only [hroutes] at hr
        have := (h.2 p).1 r hr
        show r.addr < reg.next_addr + 1
        omega
      · intro s hs
        show s.addr < reg.next_addr + 1
        rcases hsearch p s hs with hs1 | ⟨_, hsa⟩
        · have := (h.2 p).2 s hs1
          omega
        · omega
  · simp only [hf, Bool.not_false, if_true]
    exact h

theorem apply_keeps_apart (E : Ext) (reg : Registry) (op : RegistryOp)
    (h : reg.nodes_apart ∧ reg.allocated) :
    (RegistryOp.apply E reg op).nodes_apart ∧ (RegistryOp.apply E reg op).allocated := by
  cases op with
  | addURI jsp pattern fn => exact js_addURI_keeps_apart E reg jsp pattern fn h
  | addSearcher jsp fn => exact js_addSearcher_keeps_apart E reg jsp fn h
  | route_delete a =>
    simp only [RegistryOp.apply]
    split
    · refine shrink_keeps_apart reg _ ?_ ?_ (le_refl _) h
      · intro p r hr
        exact List.mem_of_mem_filter hr
      · intro p s hs
        exact hs
    · exact h
  | searcher_delete a =>
    simp only [RegistryOp.apply]
    split
    · refine shrink_keeps_apart reg _ ?_ ?_ (le_refl _) h
      · intro p r hr
        exact hr
      · intro p s hs
        exact List.mem_of_mem_filter hs
    · exact h
  | flush jsp =>
    simp only [RegistryOp.apply]
    obtain ⟨_, _, h3, h4, h5⟩ := js_page_flush_from_plugin_closed reg jsp
    refine shrink_keeps_apart reg _ ?_ ?_ (le_of_eq h5.symm) h
    · intro p r hr
      rw [h3] at hr
      exact List.mem_of_mem_filter hr
    · intro p s hs
      rw [h4] at hs
      exact List.mem_of_mem_filter hs

theorem run_nodes_apart (E : Ext) (ops : List RegistryOp) :
    (run E ops).nodes_apart ∧ (run E ops).allocated :=
  foldl_apply_invariant E (fun reg => reg.nodes_apart ∧ reg.allocated)
    (fun _ => True) (fun reg op _ h => apply_keeps_apart E reg op h)
    ops Registry.empty (fun _ _ => trivial)
    ⟨by intro p q _; simp [Registry.empty], by intro p; simp [Registry.empty]⟩

theorem filter_linked_self {α : Type} (key : α → Nat) (l : List α) :
    l.filter (fun x => !linked_in key l x) = [] := by
  rw [List.filter_eq_nil_iff]
  intro x hx
  simp only [linked_in, Bool.not_eq_true', Bool.eq_false_iff, ne_eq, List.any_eq_true,
    beq_iff_eq, not_exists, not_and, not_forall, not_not]
  exact ⟨x, hx, rfl⟩

theorem filter_linked_apart {α : Type} (key : α → Nat) (own l : List α)
    (h : ∀ x ∈ l, ∀ o ∈ own, key x ≠ key o) :
    l.filter (fun x => !linked_in key own x) = l := by
  rw [List.filter_eq_self]
  intro x hx
  simp only [linked_in, Bool.not_eq_true', Bool.eq_false_iff, ne_eq, List.any_eq_true,
    beq_iff_eq, not_exists, not_and]
  intro o ho hk
  exact h x hx o ho hk.symm

theorem mem_filter_linked {α : Type} (key : α → Nat) (own l : List α) (x : α)
    (hx : x ∈ l.filter (fun y => !linked_in key own y)) :
    ∀ o ∈ own, key x ≠ key o := by
  have h2 := (List.mem_filter.mp hx).2
  simp only [linked_in, Bool.not_eq_true', Bool.eq_false_iff, ne_eq, List.any_eq_true,
    beq_iff_eq, not_exists, not_and] at h2
  intro o ho hk
  exact h2 o ho hk.symm

/-- C7: `js_page_flush_from_plugin` is a total function (both loops end), and
in the registry it returns the plugin's route list and searcher list are
empty; no node of the plugin's lists is left in the global route list or in
the global searcher list; the global lists are the previous ones with exactly
the plugin's nodes taken out, so every other entry is still there in its
previous relative order; and, nodes being linked into one plugin list only,
every other plugin keeps its lists and each of its entries stays in the global
lists. -/
theorem js_page_flush_from_plugin_frame (reg : Registry) (jsp : Nat) :
    ((js_page_flush_from_plugin reg jsp).plugins jsp).jsp_routes = [] ∧
    ((js_page_flush_from_plugin reg jsp).plugins jsp).jsp_searchers = [] ∧
    (∀ r ∈ (reg.plugins jsp).jsp_routes,
      ∀ x ∈ (js_page_flush_from_plugin reg jsp).js_routes, x.addr ≠ r.addr) ∧
    (∀ s ∈ (reg.plugins jsp).jsp_searchers,
      ∀ x ∈ (js_page_flush_from_plugin reg jsp).js_searchers, x.addr ≠ s.addr) ∧
    (js_page_flush_from_plugin reg jsp).js_routes =
      reg.js_routes.filter (fun x => !linked_in js_route.addr (reg.plugins jsp).jsp_routes x) ∧
    (js_page_flush_from_plugin reg jsp).js_searchers =
      reg.js_searchers.filter
        (fun x => !linked_in js_searcher.addr (reg.plugins jsp).jsp_searchers x) ∧
    (js_page_flush_from_plugin reg jsp).js_routes.Sublist reg.js_routes ∧
    (js_page_flush_from_plugin reg jsp).js_searchers.Sublist reg.js_searchers ∧
    (reg.nodes_apart → ∀ q, q ≠ jsp →
      (js_page_flush_from_plugin reg jsp).plugins q = reg.plugins q ∧
      (∀ r ∈ (reg.plugins q).jsp_routes, r ∈ reg.js_routes →
        r ∈ (js_page_flush_from_plugin reg jsp).js_routes) ∧
      (∀ s ∈ (reg.plugins q).jsp_searchers, s ∈ reg.js_searchers →
        s ∈ (js_page_flush_from_plugin reg jsp).js_searchers)) := by
  obtain ⟨h1, h2, h3, h4, _⟩ := js_page_flush_from_plugin_closed reg jsp
  refine ⟨?_, ?_, ?_, ?_, h1, h2, ?_, ?_, ?_⟩
  · rw [h3]
    exact filter_linked_self js_route.addr _
  · rw [h4]
    exact filter_linked_self js_searcher.addr _
  · intro r hr x hx
    rw [h1] at hx
    exact mem_filter_linked js_route.addr _ _ x hx r hr
  · intro s hs x hx
    rw [h2] at hx
    exact mem_filter_linked js_searcher.addr _ _ x hx s hs
  · rw [h1]
    exact List.filter_sublist _
  · rw [h2]
    exact List.filter_sublist _
  · intro hap q hq
    have hr := (hap q jsp hq).1
    have hs := (hap q jsp hq).2
    refine ⟨?_, ?_, ?_⟩
    · have e1 := h3 q
      have e2 := h4 q
      rw [filter_linked_apart js_route.addr _ _ hr] at e1
      rw [filter_linked_apart js_searcher.addr _ _ hs] at e2
      cases hA : (js_page_flush_from_plugin reg jsp).plugins q with
      | mk a b =>
        cases hB : reg.plugins q with
        | mk c d =>
          rw [hA, hB] at e1 e2
          simp only at e1 e2
          rw [e1, e2]
    · intro r hrq hrg
      rw [h1, List.mem_filter]
      refine ⟨hrg, ?_⟩
      simp only [linked_in, Bool.not_eq_true', Bool.eq_false_iff, ne_eq, List.any_eq_true,
        beq_iff_eq, not_exists, not_and]
      intro o ho hk
      exact hr r hrq o ho hk.symm
    · intro s hsq hsg
      rw [h2, List.mem_filter]
      refine ⟨hsg, ?_⟩
      simp only [linked_in, Bool.not_eq_true', Bool.eq_false_iff, ne_eq, List.any_eq_true,
        beq_iff_eq, not_exists, not_and]
      intro o ho hk
      exact hs s hsq o ho hk.symm

/-- Instance of C7: two plugins with routes and searchers, plugin 0 flushed;
plugin 1 keeps its lists, and the global lists keep the nodes at addresses 3
(route) and 4 (searcher), those of plugin 1. -/
theorem js_page_flush_from_plugin_frame_witness :
    (run sampleExt ops_two_plugins).nodes_apart ∧
    (∀ q, q ≠ 0 →
      (js_page_flush_from_plugin (run sampleExt ops_two_plugins) 0).plugins q =
        (run sampleExt ops_two_plugins).plugins q ∧
      (∀ r ∈ ((run sampleExt ops_two_plugins).plugins q).jsp_routes,
        r ∈ (run sampleExt ops_two_plugins).js_routes →
        r ∈ (js_page_flush_from_plugin (run sampleExt ops_two_plugins) 0).js_routes) ∧
      (∀ s ∈ ((run sampleExt ops_two_plugins).plugins q).jsp_searchers,
        s ∈ (run sampleExt ops_two_plugins).js_searchers →
        s ∈ (js_page_flush_from_plugin (run sampleExt ops_two_plugins) 0).js_searchers)) ∧
    (run sampleExt ops_two_plugins).js_routes.map js_route.addr = [3, 1, 5] ∧
    (run sampleExt ops_two_plugins).js_searchers.map js_searcher.addr = [4, 2] ∧
    (js_page_flush_from_plugin (run sampleExt ops_two_plugins) 0).js_routes.map
      js_route.addr = [3] ∧
    (js_page_flush_from_plugin (run sampleExt ops_two_plugins) 0).js_searchers.map
      js_searcher.addr = [4] :=
  ⟨(run_nodes_apart sampleExt ops_two_plugins).1,
   (js_page_flush_from_plugin_frame (run sampleExt ops_two_plugins) 0).2.2.2.2.2.2.2.2
     (run_nodes_apart sampleExt ops_two_plugins).1,
   by decide, by decide,
   by rw [(js_page_flush_from_plugin_closed (run sampleExt ops_two_plugins) 0).1]; decide,
   by rw [(js_page_flush_from_plugin_closed (run sampleExt ops_two_plugins) 0).2.1]; decide⟩

/-! ## Search fan-out -/

theorem js_backend_search_foldl (nodes : prop_t) (query : CStr) :
    ∀ (l : List js_searcher) (sys : Sys),
      (l.foldl (js_backend_search_step nodes query) sys).threads =
        sys.threads ++ l.map (fun jss => js_backend_search_model jss nodes query) ∧
      (l.foldl (js_backend_search_step nodes query) sys).prop_refs nodes =
        sys.prop_refs nodes + l.length ∧
      (∀ p, p ≠ nodes →
        (l.foldl (js_backend_search_step nodes query) sys).prop_refs p = sys.prop_refs p) ∧
      (l.foldl (js_backend_search_step nodes query) sys).next = sys.next ∧
      (l.foldl (js_backend_search_step nodes query) sys).couriers = sys.couriers ∧
      (l.foldl (js_backend_search_step nodes query) sys).subs = sys.subs := by
  intro l
  induction l with
  | nil => intro sys; simp
  | cons jss t ih =>
    intro sys
    obtain ⟨h1, h2, h3, h4, h5, h6⟩ := ih (js_backend_search_step nodes query sys jss)
    simp only [List.foldl_cons]
    refine ⟨?_, ?_, ?_, ?_, ?_, ?_⟩
    · rw [h1]
      simp [js_backend_search_step]
    · rw [h2]
      simp only [js_backend_search_step, prop_ref_inc, if_true, List.length_cons]
      push_cast
      ring
    · intro p hp
      rw [h3 p hp]
      simp [js_backend_search_step, prop_ref_inc, hp]
    · rw [h4]; rfl
    · rw [h5]; rfl
    · rw [h6]; rfl

/-- C8: `js_backend_search` spawns exactly one worker per entry of the global
searcher list, in list order; the model of each carries that searcher's
handler, has reference count 1, run flag 1, the positional arguments `[query]`
and the shared node `prop_create(model, "nodes")` as its output collection;
that node receives as many reference increments as there are searchers, and no
other node receives any. -/
theorem js_backend_search_fans_out (js_searchers : List js_searcher) (sys : Sys)
    (model : prop_t) (query : CStr) :
    (js_backend_search js_searchers sys model query).threads.length =
      sys.threads.length + js_searchers.length ∧
    (js_backend_search js_searchers sys model query).threads =
      sys.threads ++ js_searchers.map
        (fun jss => js_backend_search_model jss (prop_create model "nodes") query) ∧
    (∀ jss : js_searcher,
      (js_backend_search_model jss (prop_create model "nodes") query).jm_openfunc =
        jss.jss_openfunc ∧
      (js_backend_search_model jss (prop_create model "nodes") query).jm_refcount = 1 ∧
      (js_backend_search_model jss (prop_create model "nodes") query).jm_run = 1 ∧
      (js_backend_search_model jss (prop_create model "nodes") query).jm_args = some [query] ∧
      (js_backend_search_model jss (prop_create model "nodes") query).jm_nodes =
        some (prop_create model "nodes")) ∧
    (js_backend_search js_searchers sys model query).prop_refs (prop_create model "nodes") =
      sys.prop_refs (prop_create model "nodes") + js_searchers.length ∧
    (∀ p, p ≠ prop_create model "nodes" →
      (js_backend_search js_searchers sys model query).prop_refs p = sys.prop_refs p) := by
  obtain ⟨h1, h2, h3, _, _, _⟩ :=
    js_backend_search_foldl (prop_create model "nodes") query js_searchers sys
  refine ⟨?_, h1, ?_, h2, h3⟩
  · unfold js_backend_search
    rw [h1]
    simp
  · intro jss
    simp [js_backend_search_model, js_model_create, strvec_addp]

/-- Instance of C8: the two searchers of `ops_two_plugins`, query `foo`; the
node `nodes` under the search model gains two references and the root none. -/
theorem js_backend_search_fans_out_witness :
    (js_backend_search (run sampleExt ops_two_plugins).js_searchers Sys.start
        { root := 7, path := [] } pat_plain).prop_refs { root := 7, path := [] } =
      Sys.start.prop_refs { root := 7, path := [] } ∧
    (js_backend_search (run sampleExt ops_two_plugins).js_searchers Sys.start
        { root := 7, path := [] } pat_plain).threads.map
        (fun jm => (jm.jm_openfunc, jm.jm_refcount, jm.jm_run, jm.jm_args, jm.jm_nodes)) =
      [(10, 1, 1, some [pat_plain], some { root := 7, path := ["nodes"] }),
       (8, 1, 1, some [pat_plain], some { root := 7, path := ["nodes"] })] ∧
    (js_backend_search (run sampleExt ops_two_plugins).js_searchers Sys.start
        { root := 7, path := [] } pat_plain).prop_refs { root := 7, path := ["nodes"] } = 2 :=
  ⟨(js_backend_search_fans_out (run sampleExt ops_two_plugins).js_searchers Sys.start
      { root := 7, path := [] } pat_plain).2.2.2.2 { root := 7, path := [] } (by decide),
   rfl, by decide⟩

/-! ## The handler call -/

theorem js_open_invoke_loop_short (args : List CStr) :
    ∀ (i : Nat) (argfmt : CStr), i + args.length ≤ 8 →
      js_open_invoke_loop args i argfmt =
        (i + args.length, argfmt ++ List.replicate args.length 's') := by
  induction args with
  | nil => intro i argfmt _; simp [js_open_invoke_loop]
  | cons a t ih =>
    intro i argfmt h
    simp only [List.length_cons] at h
    have hi : i < 8 := by omega
    simp only [js_open_invoke_loop, hi, if_true]
    rw [ih (i + 1) (argfmt ++ ['s']) (by omega)]
    simp only [List.length_cons, List.replicate_succ, List.append_assoc, List.singleton_append,
      Prod.mk.injEq, and_true]
    omega

theorem pushed_strings (args : List CStr) (h : args.length ≤ 8) :
    ((List.range 8).map
      (fun k => js_arg.string (if args.length > k then args.getD k [] else []))).take
        args.length = args.map js_arg.string := by
  apply List.ext_getElem
  · simp [h]
  · intro n h1 h2
    simp only [List.length_map] at h2
    simp [h2, List.getD_eq_getElem?_getD]

/-- The part of C9 that holds: when the argument vector is allocated and has
at most 8 entries, the handler is called with `1 + n` values, the model object
first, and with that count. -/
theorem js_open_invoke_allocated_args (jm : js_model) (args : List CStr)
    (hargs : jm.jm_args = some args) (hlen : args.length ≤ 8) :
    (js_open_invoke true jm).2 =
      some { fn := jm.jm_openfunc, argc := 1 + args.length,
             argv := js_arg.object (make_model_object jm).1 :: args.map js_arg.string } := by
  have hl := js_open_invoke_loop_short args 0 ['o'] (by omega)
  have hargs2 : (make_model_object jm).2.jm_args = some args := hargs
  simp only [js_open_invoke, hargs2, hl, JS_PushArguments, if_true, Nat.zero_add]
  simp only [List.length_append, List.length_singleton, List.length_replicate,
    Nat.add_comm 1 args.length, List.take_succ_cons, pushed_strings args hlen]
  simp only [make_model_object, Option.some.injEq, js_call.mk.injEq, true_and, and_true]
  ring

/-- C9 at a model whose argument vector was never allocated: the model that
`js_backend_open` builds for `/foo` opened at `/foo` has `jm_args = NULL`, and
`js_open_invoke` calls its handler with the count 2 while it pushed a single
value, the model object. -/
theorem js_open_invoke_null_args_passes_two :
    (js_backend_open sampleExt [route_foo 1] Sys.start loc_foo []).2.threads.map
        js_model.jm_args = [none] ∧
    (js_backend_open sampleExt [route_foo 1] Sys.start loc_foo []).2.threads.map
        (fun jm => (js_open_invoke true jm).2.map (fun c => (c.argc, c.argv.length))) =
      [some (2, 1)] ∧
    (js_open_invoke true (js_model_create 2)).2.map (fun c => (c.argc, c.argv.length)) =
      some (2, 1) := by
  decide

/-! ## Reference count of a worker's model -/

theorem js_setPaginator_foldl_refcount (E : Ext) (assigns : List jsval) :
    ∀ jm : js_model,
      (assigns.foldl (fun m v => (js_setPaginator E m v).2) jm).jm_refcount = jm.jm_refcount := by
  induction assigns with
  | nil => intro jm; rfl
  | cons v t ih =>
    intro jm
    simp only [List.foldl_cons]
    rw [ih]
    unfold js_setPaginator
    split
    · rfl
    · rfl

theorem js_model_nodesub_refcount (w : worker_state) (ev : prop_event) :
    (js_model_nodesub w ev).jm.jm_refcount = w.jm.jm_refcount := by
  cases ev with
  | PROP_DESTROYED => rfl
  | PROP_EXT_EVENT e =>
    simp only [js_model_nodesub, js_model_fill]
    split
    · split
      · rfl
      · rfl
    · rfl
  | other c => rfl

theorem js_model_nodesub_foldl_refcount (batch : List prop_event) :
    ∀ w : worker_state,
      (batch.foldl js_model_nodesub w).jm.jm_refcount = w.jm.jm_refcount := by
  induction batch with
  | nil => intro w; rfl
  | cons ev t ih =>
    intro w
    simp only [List.foldl_cons]
    rw [ih, js_model_nodesub_refcount]

theorem js_open_trampoline_wait_refcount (deliveries : List (List prop_event)) :
    ∀ w : worker_state,
      (js_open_trampoline_wait deliveries w).1.jm.jm_refcount = w.jm.jm_refcount := by
  induction deliveries with
  | nil =>
    intro w
    simp only [js_open_trampoline_wait]
    split
    · rfl
    · rfl
  | cons batch rest ih =>
    intro w
    simp only [js_open_trampoline_wait]
    split
    · split
      · rfl
      · rw [ih, js_model_nodesub_foldl_refcount]
    · rfl

theorem js_open_invoke_refcount (ok : Bool) (jm : js_model) :
    (js_open_invoke ok jm).1.jm_refcount = int32 (jm.jm_refcount + 1) := by
  unfold js_open_invoke
  simp only
  split
  · split
    · rfl
    · rfl
  · split
    · rfl
    · rfl

theorem js_open_trampoline_body_refcount (E : Ext) (ok : Bool) (assigns : List jsval)
    (deliveries : List (List prop_event)) (cx : Nat) (jm : js_model) :
    (js_open_trampoline_body E ok assigns deliveries cx jm).1.jm.jm_refcount =
      int32 (jm.jm_refcount + 1) := by
  have hjm1 : (match (js_open_invoke ok jm).2 with
      | some _ => assigns.foldl (fun m v => (js_setPaginator E m v).2) (js_open_invoke ok jm).1
      | none => (js_open_invoke ok jm).1).jm_refcount = int32 (jm.jm_refcount + 1) := by
    split
    · rw [js_setPaginator_foldl_refcount, js_open_invoke_refcount]
    · exact js_open_invoke_refcount ok jm
  unfold js_open_trampoline_body
  simp only
  split
  · rw [js_open_trampoline_wait_refcount]
    exact hjm1
  · exact hjm1

theorem js_model_release_at_two (sys : Sys) (cell : model_cell)
    (h : cell.jm.jm_refcount = 2) :
    (js_model_release sys cell).1 = sys ∧
    (js_model_release sys cell).2.jm.jm_refcount = 1 ∧
    (js_model_release sys cell).2.destroyed = cell.destroyed := by
  simp [js_model_release, atomic_add, h, int32]

theorem js_model_release_at_one (sys : Sys) (cell : model_cell)
    (h : cell.jm.jm_refcount = 1) :
    (js_model_release sys cell).2.jm.jm_refcount = 0 ∧
    (js_model_release sys cell).2.destroyed = cell.destroyed + 1 ∧
    (js_model_release sys cell).1 =
      js_model_destroy sys { cell.jm with jm_refcount := 0 } := by
  simp [js_model_release, atomic_add, h, int32]

/-- C10: a model built by `js_backend_open` or by `js_backend_search` has
reference count 1; `js_open_invoke` raises it to 2 and it is still 2 when the
worker has run its handler and served its event queue; of the two releases
that follow, the finalizer of the script object and the exit of the worker, in
either order, the first leaves the count at 1 with `js_model_destroy` not run
and the process state untouched, and the second brings the count to 0 and
runs `js_model_destroy`, once. -/
theorem js_model_refcount_lifecycle (E : Ext) (ok : Bool) (assigns : List jsval)
    (deliveries : List (List prop_event)) (cx : Nat) (sys : Sys) (jm : js_model)
    (hjm : (∃ jsr url m root pc, jm = js_backend_open_model jsr url m root pc) ∨
           (∃ jss nodes query, jm = js_backend_search_model jss nodes query)) :
    jm.jm_refcount = 1 ∧
    (js_open_invoke ok jm).1.jm_refcount = 2 ∧
    (js_open_trampoline_body E ok assigns deliveries cx jm).1.jm.jm_refcount = 2 ∧
    (∀ cell : model_cell,
      cell = { jm := (js_open_trampoline_body E ok assigns deliveries cx jm).1.jm,
               destroyed := 0 } →
      ((model_finalize sys cell).1 = sys ∧
        (model_finalize sys cell).2.jm.jm_refcount = 1 ∧
        (model_finalize sys cell).2.destroyed = 0 ∧
        (js_open_trampoline_exit sys (model_finalize sys cell).2).2.jm.jm_refcount = 0 ∧
        (js_open_trampoline_exit sys (model_finalize sys cell).2).2.destroyed = 1) ∧
      ((js_open_trampoline_exit sys cell).1 = sys ∧
        (js_open_trampoline_exit sys cell).2.jm.jm_refcount = 1 ∧
        (js_open_trampoline_exit sys cell).2.destroyed = 0 ∧
        (model_finalize sys (js_open_trampoline_exit sys cell).2).2.jm.jm_refcount = 0 ∧
        (model_finalize sys (js_open_trampoline_exit sys cell).2).2.destroyed = 1)) := by
  have h1 : jm.jm_refcount = 1 := by
    rcases hjm with ⟨jsr, url, m, root, pc, rfl⟩ | ⟨jss, nodes, query, rfl⟩
    · rfl
    · rfl
  have h2 : int32 (jm.jm_refcount + 1) = 2 := by rw [h1]; decide
  refine ⟨h1, ?_, ?_, ?_⟩
  · rw [js_open_invoke_refcount, h2]
  · rw [js_open_trampoline_body_refcount, h2]
  · intro cell hcell
    have hc : cell.jm.jm_refcount = 2 := by
      rw [hcell]
      show (js_open_trampoline_body E ok assigns deliveries cx jm).1.jm.jm_refcount = 2
      rw [js_open_trampoline_body_refcount, h2]
    have hd : cell.destroyed = 0 := by rw [hcell]
    obtain ⟨a1, a2, a3⟩ := js_model_release_at_two sys cell hc
    obtain ⟨b1, b2, _⟩ := js_model_release_at_one sys (js_model_release sys cell).2 a2
    rw [a3, hd] at b2
    rw [hd] at a3
    exact ⟨⟨a1, a2, a3, b1, b2⟩, ⟨a1, a2, a3, b1, b2⟩⟩

/-- Instance of C10: the model of `/bar/(.*)` opened at `/bar/baz`, whose
handler installs the paginator 12 and whose queue delivers an append request
and then the destruction of the output collection. -/
theorem js_model_refcount_lifecycle_witness :
    sample_open_model.jm_refcount = 1 ∧
    (js_open_invoke true sample_open_model).1.jm_refcount = 2 ∧
    sample_cell.jm.jm_refcount = 2 ∧
    ((model_finalize Sys.start sample_cell).1 = Sys.start ∧
      (model_finalize Sys.start sample_cell).2.jm.jm_refcount = 1 ∧
      (model_finalize Sys.start sample_cell).2.destroyed = 0 ∧
      (js_open_trampoline_exit Sys.start
        (model_finalize Sys.start sample_cell).2).2.jm.jm_refcount = 0 ∧
      (js_open_trampoline_exit Sys.start
        (model_finalize Sys.start sample_cell).2).2.destroyed = 1) ∧
    ((js_open_trampoline_exit Sys.start sample_cell).1 = Sys.start ∧
      (js_open_trampoline_exit Sys.start sample_cell).2.jm.jm_refcount = 1 ∧
      (js_open_trampoline_exit Sys.start sample_cell).2.destroyed = 0 ∧
      (model_finalize Sys.start
        (js_open_trampoline_exit Sys.start sample_cell).2).2.jm.jm_refcount = 0 ∧
      (model_finalize Sys.start
        (js_open_trampoline_exit Sys.start sample_cell).2).2.destroyed = 1) ∧
    (js_open_trampoline_body sampleExt true [12] sample_deliveries 1 sample_open_model).2 =
      worker_status.leaving :=
  have h := js_model_refcount_lifecycle sampleExt true [12] sample_deliveries 1 Sys.start
    sample_open_model
    (Or.inl ⟨route_bar_group 2, loc_bar_baz, slots_bar_baz, { root := 100, path := [] }, 101,
      rfl⟩)
  ⟨h.1, h.2.1, h.2.2.1, (h.2.2.2 sample_cell rfl).1, (h.2.2.2 sample_cell rfl).2, by decide⟩

/-! ## Events after the destruction of the output collection -/

theorem js_model_nodesub_keeps_run_zero (w : worker_state) (ev : prop_event)
    (h : w.jm.jm_run = 0) : (js_model_nodesub w ev).jm.jm_run = 0 := by
  cases ev with
  | PROP_DESTROYED => rfl
  | PROP_EXT_EVENT e =>
    simp only [js_model_nodesub, js_model_fill]
    split
    · split
      · exact h
      · exact h
    · exact h
  | other c => exact h

theorem js_model_nodesub_foldl_keeps_run_zero (batch : List prop_event) :
    ∀ w : worker_state, w.jm.jm_run = 0 →
      (batch.foldl js_model_nodesub w).jm.jm_run = 0 := by
  induction batch with
  | nil => intro w h; exact h
  | cons ev t ih =>
    intro w h
    simp only [List.foldl_cons]
    exact ih _ (js_model_nodesub_keeps_run_zero w ev h)

theorem destroyed_in_batch_clears_run (batch : List prop_event) :
    ∀ w : worker_state, prop_event.PROP_DESTROYED ∈ batch →
      (batch.foldl js_model_nodesub w).jm.jm_run = 0 := by
  induction batch with
  | nil => intro w h; simp at h
  | cons ev t ih =>
    intro w h
    simp only [List.foldl_cons]
    rcases List.mem_cons.mp h with hev | ht
    · subst hev
      exact js_model_nodesub_foldl_keeps_run_zero t _ rfl
    · exact ih _ ht

theorem js_open_trampoline_wait_of_run_zero (deliveries : List (List prop_event))
    (w : worker_state) (h : w.jm.jm_run = 0) :
    js_open_trampoline_wait deliveries w = (w, worker_status.leaving) := by
  cases deliveries with
  | nil => simp [js_open_trampoline_wait, h]
  | cons batch rest => simp [js_open_trampoline_wait, h]

/-- C11, as the code has it: `js_model_nodesub` does not look at the run flag.
After it has handled `PROP_DESTROYED` for the sample worker (run flag 0), an
append request handed to it calls the paginator 12; through the worker, a
delivery holding the destruction and then an append request ends with the
calls of the handler 6 and of the paginator 12. -/
theorem append_after_destroy_invokes_paginator :
    (js_model_nodesub sample_worker prop_event.PROP_DESTROYED).jm.jm_run = 0 ∧
    (js_model_nodesub (js_model_nodesub sample_worker prop_event.PROP_DESTROYED)
        (prop_event.PROP_EXT_EVENT event_type.EVENT_APPEND_REQUEST)).calls ≠
      (js_model_nodesub sample_worker prop_event.PROP_DESTROYED).calls ∧
    (js_model_nodesub (js_model_nodesub sample_worker prop_event.PROP_DESTROYED)
        (prop_event.PROP_EXT_EVENT event_type.EVENT_APPEND_REQUEST)).calls.map js_call.fn =
      [12] ∧
    (js_open_trampoline_body sampleExt true [12] [destroy_then_append] 1
        sample_open_model).1.calls.map js_call.fn = [6, 12] := by
  decide

/-- C11 amended: once `js_model_nodesub` has handled a destruction
notification in a delivery, the run flag is 0 at the end of that delivery and
the worker leaves its wait loop without another `prop_courier_wait`: the
deliveries that would follow are never handed to the callback and add no call
of the continuation. The callback itself does not consult the run flag: an
append request handed to it while the flag is 0 still calls the installed
continuation. -/
theorem worker_leaves_after_destroy_cycle (batch : List prop_event)
    (rest : List (List prop_event)) (w : worker_state)
    (hrun : w.jm.jm_run ≠ 0) (hpc : w.jm.jm_pc ≠ none)
    (hd : prop_event.PROP_DESTROYED ∈ batch) :
    (batch.foldl js_model_nodesub w).jm.jm_run = 0 ∧
    js_open_trampoline_wait (batch :: rest) w =
      (batch.foldl js_model_nodesub w, worker_status.leaving) ∧
    (js_open_trampoline_wait (batch :: rest) w).1.calls =
      (js_open_trampoline_wait [batch] w).1.calls ∧
    (∀ v : worker_state, v.jm.jm_run = 0 → v.jm.jm_paginator ≠ 0 →
      (js_model_nodesub v (prop_event.PROP_EXT_EVENT event_type.EVENT_APPEND_REQUEST)).calls =
        v.calls ++ [{ fn := v.jm.jm_paginator, argc := 0, argv := [] }]) := by
  have h0 := destroyed_in_batch_clears_run batch w hd
  have hstep : ∀ tail : List (List prop_event),
      js_open_trampoline_wait (batch :: tail) w =
        (batch.foldl js_model_nodesub w, worker_status.leaving) := by
    intro tail
    simp only [js_open_trampoline_wait, hrun, hpc, ne_eq, not_false_eq_true, if_true, if_false]
    exact js_open_trampoline_wait_of_run_zero tail _ h0
  refine ⟨h0, hstep rest, ?_, ?_⟩
  · rw [hstep rest, hstep []]
  · intro v _ hp
    simp [js_model_nodesub, js_model_fill, hp]

/-- Instance of C11 amended: the sample worker receives the destruction
followed by an append request, and two more deliveries are pending; the calls
made are those of the first delivery only. -/
theorem worker_leaves_after_destroy_cycle_witness :
    (destroy_then_append.foldl js_model_nodesub sample_worker).jm.jm_run = 0 ∧
    js_open_trampoline_wait (destroy_then_append :: sample_deliveries) sample_worker =
      (destroy_then_append.foldl js_model_nodesub sample_worker, worker_status.leaving) ∧
    (js_open_trampoline_wait (destroy_then_append :: sample_deliveries) sample_worker).1.calls =
      (js_open_trampoline_wait [destroy_then_append] sample_worker).1.calls ∧
    (js_open_trampoline_wait (destroy_then_append :: sample_deliveries)
      sample_worker).1.calls.map js_call.fn = [12] :=
  have h := worker_leaves_after_destroy_cycle destroy_then_append sample_deliveries
    sample_worker (by decide) (by decide) (by decide)
  ⟨h.1, h.2.1, h.2.2.1, by decide⟩

/-! ## Event queue and subscription at spawn time -/

/-- The part of C12 that holds: the model `js_backend_open` hands to its worker
has an event queue and a subscription tracking the destruction of its output
collection on that queue, both live in the process state. -/
theorem js_backend_open_installs_queue (E : Ext) (js_routes : List js_route) (sys : Sys)
    (url view : CStr) (jsr : js_route) (m : Fin 8 → regmatch_t)
    (hscan : js_backend_open_scan E url js_routes = some (jsr, m)) :
    ∃ jm pc sub, (js_backend_open E js_routes sys url view).2.threads = sys.threads ++ [jm] ∧
      jm.jm_pc = some pc ∧ jm.jm_nodesub = some sub ∧
      sub.ps_track_destroy = true ∧ sub.ps_root = jm.jm_nodes ∧ sub.ps_courier = some pc ∧
      jm.jm_nodes ≠ none ∧
      pc ∈ (js_backend_open E js_routes sys url view).2.couriers ∧
      sub ∈ (js_backend_open E js_routes sys url view).2.subs := by
  refine ⟨js_backend_open_model jsr url m { root := sys.next, path := [] } (sys.next + 1),
    sys.next + 1,
    { ps_track_destroy := true,
      ps_root := some (prop_create (prop_create { root := sys.next, path := [] } "model") "nodes"),
      ps_courier := some (sys.next + 1) }, ?_, rfl, rfl, rfl, rfl, rfl, ?_, ?_, ?_⟩
  · simp only [js_backend_open, hscan]
  · simp [js_backend_open_model]
  · simp only [js_backend_open, hscan]
    simp
  · simp only [js_backend_open, hscan]
    simp [js_backend_open_model]

theorem js_backend_search_leaves_queue_null (js_searchers : List js_searcher) (sys : Sys)
    (model : prop_t) (query : CStr) :
    (js_backend_search js_searchers sys model query).threads =
      sys.threads ++ js_searchers.map
        (fun jss => js_backend_search_model jss (prop_create model "nodes") query) ∧
    (∀ jss : js_searcher,
      (js_backend_search_model jss (prop_create model "nodes") query).jm_pc = none ∧
      (js_backend_search_model jss (prop_create model "nodes") query).jm_nodesub = none) ∧
    (js_backend_search js_searchers sys model query).couriers = sys.couriers ∧
    (js_backend_search js_searchers sys model query).subs = sys.subs := by
  obtain ⟨h1, _, _, _, h5, h6⟩ :=
    js_backend_search_foldl (prop_create model "nodes") query js_searchers sys
  exact ⟨h1, fun _ => ⟨rfl, rfl⟩, h5, h6⟩

theorem js_open_trampoline_wait_null_queue (deliveries : List (List prop_event))
    (w : worker_state) (hrun : w.jm.jm_run ≠ 0) (hpc : w.jm.jm_pc = none) :
    js_open_trampoline_wait deliveries w = (w, worker_status.null_queue) := by
  cases deliveries with
  | nil => simp [js_open_trampoline_wait, hrun, hpc]
  | cons batch rest => simp [js_open_trampoline_wait, hrun, hpc]

/-- C12 at a search fan-out: the models `js_backend_search` hands to its
workers for the two sample searchers have `jm_pc = NULL` and
`jm_nodesub = NULL`, and no event queue or subscription is created; when the
handler of such a model installs the paginator 12, the worker enters the wait
loop with the run flag 1 and calls `prop_courier_wait` on the `NULL` queue,
whatever is delivered. The model of `js_backend_open`, by contrast, has both
installed. -/
theorem search_models_lack_event_queue :
    (js_backend_search (run sampleExt ops_two_plugins).js_searchers Sys.start
        { root := 7, path := [] } pat_plain).threads.map js_model.jm_pc = [none, none] ∧
    (js_backend_search (run sampleExt ops_two_plugins).js_searchers Sys.start
        { root := 7, path := [] } pat_plain).threads.map js_model.jm_nodesub = [none, none] ∧
    (js_backend_search (run sampleExt ops_two_plugins).js_searchers Sys.start
        { root := 7, path := [] } pat_plain).couriers = [] ∧
    (js_backend_search (run sampleExt ops_two_plugins).js_searchers Sys.start
        { root := 7, path := [] } pat_plain).subs = [] ∧
    (js_backend_search (run sampleExt ops_two_plugins).js_searchers Sys.start
        { root := 7, path := [] } pat_plain).threads.map
        (fun jm => (js_open_trampoline_body sampleExt true [12] sample_deliveries 1 jm).2) =
      [worker_status.null_queue, worker_status.null_queue] ∧
    (js_backend_search (run sampleExt ops_two_plugins).js_searchers Sys.start
        { root := 7, path := [] } pat_plain).threads.map
        (fun jm => (js_open_trampoline_body sampleExt true [12] sample_deliveries 1
          jm).1.jm.jm_run) = [1, 1] ∧
    (js_backend_open sampleExt [route_foo 1] Sys.start loc_foo []).2.threads.map
        js_model.jm_pc = [some 101] ∧
    (js_backend_open sampleExt [route_foo 1] Sys.start loc_foo []).2.threads.map
        (fun jm => jm.jm_nodesub.map prop_sub_t.ps_courier) = [some (some 101)] := by
  decide

/-! ## Nested models made by `appendModel` -/

theorem js_setPaginator_foldl_frame (E : Ext) (assigns : List jsval) :
    ∀ jm : js_model,
      (assigns.foldl (fun m v => (js_setPaginator E m v).2) jm).jm_refcount = jm.jm_refcount ∧
      (assigns.foldl (fun m v => (js_setPaginator E m v).2) jm).jm_nodes = jm.jm_nodes ∧
      (assigns.foldl (fun m v => (js_setPaginator E m v).2) jm).jm_type = jm.jm_type ∧
      (assigns.foldl (fun m v => (js_setPaginator E m v).2) jm).jm_entries = jm.jm_entries := by
  induction assigns with
  | nil => intro jm; exact ⟨rfl, rfl, rfl, rfl⟩
  | cons v t ih =>
    intro jm
    simp only [List.foldl_cons]
    obtain ⟨h1, h2, h3, h4⟩ := ih (js_setPaginator E jm v).2
    rw [h1, h2, h3, h4]
    unfold js_setPaginator
    split
    · exact ⟨rfl, rfl, rfl, rfl⟩
    · exact ⟨rfl, rfl, rfl, rfl⟩

/-- The leak behind C13 in general: whatever the arguments, the parent and the
values the script assigns to `paginator`, the nested model of a successful
`js_appendModel` has reference count 2, and the finalizer of its script
object, the only release this file performs on it, leaves the count at 1: the
process state is returned as it was and `js_model_destroy` has not run. -/
theorem nested_model_is_not_destroyed (E : Ext) (JSVAL_VOID : jsval)
    (prop_set_parent : prop_t → Option prop_t → Bool) (sys : Sys) (parent : js_model)
    (type : CStr) (metaobj : Bool) (assigns : List jsval) :
    ∃ cell, (js_appendModel JSVAL_VOID prop_set_parent sys parent (some (type, metaobj))).cell =
        some cell ∧
      cell.jm.jm_refcount = 2 ∧ cell.destroyed = 0 ∧
      (model_finalize
        (js_appendModel JSVAL_VOID prop_set_parent sys parent (some (type, metaobj))).sys
        { cell with jm := assigns.foldl (fun m v => (js_setPaginator E m v).2) cell.jm }).1 =
        (js_appendModel JSVAL_VOID prop_set_parent sys parent (some (type, metaobj))).sys ∧
      (model_finalize
        (js_appendModel JSVAL_VOID prop_set_parent sys parent (some (type, metaobj))).sys
        { cell with jm := (assigns.foldl (fun m v => (js_setPaginator E m v).2)
            cell.jm) }).2.jm.jm_refcount = 1 ∧
      (model_finalize
        (js_appendModel JSVAL_VOID prop_set_parent sys parent (some (type, metaobj))).sys
        { cell with jm := (assigns.foldl (fun m v => (js_setPaginator E m v).2)
            cell.jm) }).2.destroyed = 0 := by
  refine ⟨_, rfl, ?_, rfl, ?_⟩
  · simp only [make_model_object, atomic_add, js_model_create]
    decide
  · have hc : (assigns.foldl (fun m v => (js_setPaginator E m v).2)
        (make_model_object { js_model_create JSVAL_VOID with
          jm_nodes := some (prop_create { root := sys.next, path := [] } "nodes"),
          jm_type := some (prop_create { root := sys.next, path := [] } "type"),
          jm_entries := some (prop_create
            (prop_create { root := sys.next, path := [] } "metadata") "entries") }).2).jm_refcount
        = 2 := by
      rw [(js_setPaginator_foldl_frame E assigns _).1]
      simp only [make_model_object, atomic_add, js_model_create]
      decide
    exact js_model_release_at_two _ _ hc

/-- C13 at a nested model: the handler of the sample page calls
`appendModel("foo")`. The nested model takes one reference on each of its
nodes `nodes`, `type` and `metadata/entries` and has reference count 2 when the
script receives it; after the finalizer of its script object the count is 1,
`js_model_destroy` has not run and each of the three nodes still carries the
reference; no other release of this model exists in the file. -/
theorem nested_model_keeps_node_references :
    sample_append.ret = JSBool.JS_TRUE ∧
    sample_nested.jm.jm_refcount = 2 ∧
    (sample_nested.jm.jm_nodes, sample_nested.jm.jm_type, sample_nested.jm.jm_entries) =
      (some { root := 100, path := ["nodes"] }, some { root := 100, path := ["type"] },
       some { root := 100, path := ["metadata", "entries"] }) ∧
    sample_nested.jm.jm_pc = none ∧
    sample_append.sys.threads = [] ∧
    [sample_append.sys.prop_refs { root := 100, path := ["nodes"] },
     sample_append.sys.prop_refs { root := 100, path := ["type"] },
     sample_append.sys.prop_refs { root := 100, path := ["metadata", "entries"] }] =
      [1, 1, 1] ∧
    (model_finalize sample_append.sys sample_nested).2.jm.jm_refcount = 1 ∧
    (model_finalize sample_append.sys sample_nested).2.destroyed = 0 ∧
    [(model_finalize sample_append.sys sample_nested).1.prop_refs
        { root := 100, path := ["nodes"] },
     (model_finalize sample_append.sys sample_nested).1.prop_refs
        { root := 100, path := ["type"] },
     (model_finalize sample_append.sys sample_nested).1.prop_refs
        { root := 100, path := ["metadata", "entries"] }] = [1, 1, 1] := by
  decide

end Showtime
